import Mathlib

/-!
Verification of the structural data-region locator of the ai-web-scraper
repository.  The Python sources (app/ai/agents/DataLocator.py,
app/navigation/Document.py, app/navigation/ExtendedTag.py) are embedded
shallowly: BeautifulSoup parse trees become the inductive `Node` type,
node *instances* are identified by their path (list of child indices)
from the document root, and every method used by the locator is
translated into a total Lean function.

Modelling conventions, fixed once here:
* BeautifulSoup tag equality (`Tag.__eq__`) is *markup* equality: same
  name, same attributes, and recursively equal contents, regardless of
  which node instance is compared — and `Tag.__hash__` is
  `str(self).__hash__()`, so dict keying by tags also works up to markup
  equality.  Markup equality is modelled by value equality of `Node`
  subtrees.  Node *identity* (`is`) is modelled by path equality.
* Attribute dictionaries are modelled as ordered association lists and
  compared as lists; this is faithful whenever attributes are kept in
  their canonical parse order, which is the case for every tree built in
  this development.
* Python floats produced by the single division `strings_found /
  len(self._sample_strings)` are modelled as exact rational values
  represented by numerator/denominator pairs of naturals.  Equality and
  order comparisons between such quotients of small naturals agree with
  the IEEE-double comparisons performed by the Python code, because
  float division is correctly rounded and the rationals involved are
  separated by far more than the rounding error.
* Comments in the HTML are not modelled: the locator's text search and
  text extraction treat them as absent, matching `get_text`'s behaviour
  of skipping comment strings.
-/

/-- An HTML node as held by BeautifulSoup: an element with a tag name,
an ordered attribute list and a list of children, or a bare text node
(`NavigableString`). -/
inductive Node where
  | text (s : String)
  | elem (nm : String) (attrs : List (String × String)) (children : List Node)
deriving Repr

mutual
/-- Markup equality of nodes, the behaviour of BeautifulSoup's
`Tag.__eq__`: equal tag name, equal attributes and recursively equal
contents. -/
def Node.beq : Node → Node → Bool
  | .text s, .text t => s == t
  | .elem n1 a1 c1, .elem n2 a2 c2 => n1 == n2 && a1 == a2 && Node.beqList c1 c2
  | _, _ => false
def Node.beqList : List Node → List Node → Bool
  | [], [] => true
  | c :: cs, d :: ds => Node.beq c d && Node.beqList cs ds
  | _, _ => false
end

mutual
theorem Node.beq_iff : ∀ a b : Node, Node.beq a b = true ↔ a = b
  | .text _, .text _ => by simp [Node.beq]
  | .text _, .elem _ _ _ => by simp [Node.beq]
  | .elem _ _ _, .text _ => by simp [Node.beq]
  | .elem n1 a1 c1, .elem n2 a2 c2 => by
      simp [Node.beq, Node.beqList_iff c1 c2, and_assoc]
theorem Node.beqList_iff : ∀ l1 l2 : List Node, Node.beqList l1 l2 = true ↔ l1 = l2
  | [], [] => by simp [Node.beqList]
  | [], _ :: _ => by simp [Node.beqList]
  | _ :: _, [] => by simp [Node.beqList]
  | c :: cs, d :: ds => by
      simp [Node.beqList, Node.beq_iff c d, Node.beqList_iff cs ds]
end

instance : DecidableEq Node := fun a b =>
  decidable_of_iff (Node.beq a b = true) (Node.beq_iff a b)

/-- The children of a node; a text node has none. -/
def Node.children : Node → List Node
  | .text _ => []
  | .elem _ _ cs => cs

/-- Resolve a path (list of child indices) to the subtree it denotes. -/
def subtreeAt : Node → List Nat → Option Node
  | n, [] => some n
  | .text _, _ :: _ => none
  | .elem _ _ cs, i :: p =>
    match cs.get? i with
    | some c => subtreeAt c p
    | none => none

/-- Total variant of `subtreeAt`; every theorem below only applies it to
valid paths, where it agrees with `subtreeAt`. -/
def nodeAt (root : Node) (p : List Nat) : Node := (subtreeAt root p).getD (.text "")

/-- Paths of the strict ancestors of the node at `p`, nearest parent
first, ending with `[]` (the document root, i.e. the soup object, which
BeautifulSoup's `parents` iterator also yields last). -/
def ancestorPaths (p : List Nat) : List (List Nat) :=
  (List.range p.length).map (fun j => p.take (p.length - 1 - j))

mutual
/-- All subtrees of a node in document (preorder) order, the node itself
first: the node together with BeautifulSoup's `descendants`. -/
def Node.subtreesIncl : Node → List Node
  | .text s => [.text s]
  | .elem nm ats cs => .elem nm ats cs :: Node.subtreesList cs
def Node.subtreesList : List Node → List Node
  | [] => []
  | c :: cs => Node.subtreesIncl c ++ Node.subtreesList cs
end

/-- BeautifulSoup's `descendants` of a node: every strictly contained
subtree, in document order. -/
def Node.properSubtrees (n : Node) : List Node := (Node.subtreesIncl n).drop 1

mutual
/-- Number of nodes in a tree; used to separate a node from its strict
subtrees. -/
def Node.size : Node → Nat
  | .text _ => 1
  | .elem _ _ cs => 1 + Node.sizeList cs
def Node.sizeList : List Node → Nat
  | [] => 0
  | c :: cs => Node.size c + Node.sizeList cs
end

mutual
/-- Relative paths of all nodes of a tree in preorder, `[]` first:
the traversal order of BeautifulSoup's `find_all`. -/
def Node.positions : Node → List (List Nat)
  | .text _ => [[]]
  | .elem _ _ cs => [] :: Node.positionsList 0 cs
def Node.positionsList : Nat → List Node → List (List Nat)
  | _, [] => []
  | i, c :: cs => (Node.positions c).map (i :: ·) ++ Node.positionsList (i + 1) cs
end

mutual
/-- Concatenation of every string in the subtree, in document order:
BeautifulSoup's `get_text()`. -/
def Node.getText : Node → String
  | .text s => s
  | .elem _ _ cs => Node.getTextList cs
def Node.getTextList : List Node → String
  | [] => ""
  | c :: cs => Node.getText c ++ Node.getTextList cs
end

mutual
/-- BeautifulSoup's `Tag.string`: the unique string reached by
descending through nodes that have exactly one child; `none` as soon as
a node has zero or several children. -/
def Node.tagString : Node → Option String
  | .text s => some s
  | .elem _ _ cs => Node.tagStringList cs
def Node.tagStringList : List Node → Option String
  | [c] => Node.tagString c
  | _ => none
end

/-! String helpers mirroring the Python string methods used by the
locator, written over character lists so that they evaluate inside the
kernel. -/

/-- ASCII lower-casing of one character, the effect of `str.lower` on
the character sets appearing in this development. -/
def lowerChar (c : Char) : Char :=
  if 65 ≤ c.toNat ∧ c.toNat ≤ 90 then Char.ofNat (c.toNat + 32) else c

/-- `str.lower` as a character list. -/
def pyLower (s : String) : List Char := s.data.map lowerChar

/-- The characters removed by Python's default `str.strip`. -/
def isPySpace (c : Char) : Bool :=
  c == ' ' || c == '\t' || c == '\n' || c == '\r' || c == '\x0b' || c == '\x0c'

/-- Python's `str.strip()`. -/
def pyStrip (s : String) : String :=
  ⟨((s.data.dropWhile isPySpace).reverse.dropWhile isPySpace).reverse⟩

def isPrefixCh : List Char → List Char → Bool
  | [], _ => true
  | _ :: _, [] => false
  | a :: as, b :: bs => a == b && isPrefixCh as bs

def isInfixCh (n : List Char) : List Char → Bool
  | [] => n.isEmpty
  | b :: bs => isPrefixCh n (b :: bs) || isInfixCh n bs

/-- Python's `needle in hay` on strings, after lower-casing both sides:
the containment test of the coverage filter. -/
def lowerIn (needle hay : String) : Bool := isInfixCh (pyLower needle) (pyLower hay)

/-- Python's `s.endswith('...')`. -/
def endsWithDots (s : String) : Bool := isPrefixCh ['.', '.', '.'] s.data.reverse

/-- Python's `s.rstrip('.')`: drop every trailing period. -/
def rstripDots (s : String) : String := ⟨(s.data.reverse.dropWhile (· == '.')).reverse⟩

/-- The tag name of the node at a path, when it is an element. -/
def tagNameAt (root : Node) (p : List Nat) : Option String :=
  match subtreeAt root p with
  | some (.elem nm _ _) => some nm
  | _ => none

/-- Whether the node at a path is an element (a `Tag`, not a string). -/
def isElemAt (root : Node) (p : List Nat) : Bool :=
  match subtreeAt root p with
  | some (.elem _ _ _) => true
  | _ => false

/-- Paths of the strict descendants of the node at `base`, in document
order. -/
def descendantPositions (root : Node) (base : List Nat) : List (List Nat) :=
  ((nodeAt root base).positions.drop 1).map (base ++ ·)

/-- Paths of the element descendants of the node at `base` in document
order: the candidates examined by `find_all` on that node. -/
def findAllPositions (root : Node) (base : List Nat) : List (List Nat) :=
  (descendantPositions root base).filter (isElemAt root)

/-! Document.py: text-anchor matcher, common ancestor, ancestor chains,
multi-document merger. -/

/-- `Document._tag_contains_text`: `tag.string and tag.string.strip() ==
text`.  An empty string is falsy in Python, so it never matches. -/
def tagContainsText (n : Node) (t : String) : Bool :=
  match Node.tagString n with
  | some s => (s != "") && (pyStrip s == t)
  | none => false

/-- `Document.find_elements_by_text`: every element strictly below the
body, in document order, whose `string` matches `text` per
`tagContainsText`. -/
def findElementsByText (root : Node) (bodyPath : List Nat) (t : String) : List (List Nat) :=
  (findAllPositions root bodyPath).filter (fun p => tagContainsText (nodeAt root p) t)

/-- `Document.find_common_ancestor`: the first entry of `element1`'s
parent chain for which Python's `in` finds a markup-equal entry in
`element2`'s parent chain.  The result is a path, hence an actual
ancestor (instance) of `element1`. -/
def findCommonAncestor (root : Node) (p q : List Nat) : Option (List Nat) :=
  (ancestorPaths p).find? (fun a =>
    (ancestorPaths q).any (fun b => subtreeAt root a == subtreeAt root b))

/-- `Document.find_ancestors`: `[element]` followed by the strict
ancestors of `element` collected while they are not markup-equal to
`ancestor_limit`, then reversed.  (When no ancestor compares equal the
Python loop would run past the root and raise; in this development the
limit always lies on the chain, and the model then stops at the root.) -/
def findAncestors (root : Node) (e : List Nat) (limit : Node) : List (List Nat) :=
  (e :: (ancestorPaths e).takeWhile (fun p => !(subtreeAt root p == some limit))).reverse

/-- The keyword parameters of `BeautifulSoup.new_tag` (bs4 4.8+):
`new_tag(name, namespace=None, nsprefix=None, attrs={}, sourceline=None,
sourcepos=None, **kwattrs)`.  An attribute whose key is one of these
names never reaches the attribute dict of the rebuilt tag: `name` is
filtered out by `_copy_tag` itself, `namespace`, `nsprefix`,
`sourceline` and `sourcepos` are captured by the like-named parameters,
and a key `attrs` makes `new_tag` raise (`kwattrs.update` on the
non-dict value) — a raising path this total model collapses to dropping
the pair like the others; no judged theorem evaluates it. -/
def newTagParamKeys : List String :=
  ["name", "namespace", "nsprefix", "attrs", "sourceline", "sourcepos"]

mutual
/-- `Document._copy_tag` / the string branch of the merge loop: tags are
rebuilt with `new_tag(src_tag.name, **attributes_except_name)` — the
code's own filter drops any attribute literally called `name`, and
`new_tag`'s keyword parameters swallow the other `newTagParamKeys` —
and strings are rebuilt with `new_string(str(child))`. -/
def copyTag : Node → Node
  | .text s => .text s
  | .elem nm ats cs =>
    .elem nm (ats.filter (fun kv => !(newTagParamKeys.contains kv.1))) (copyTagList cs)
def copyTagList : List Node → List Node
  | [] => []
  | c :: cs => copyTag c :: copyTagList cs
end

/-- `soup.body`: the first element named `body` in document order,
excluding the root object itself. -/
def findBodyPath (root : Node) : Option (List Nat) :=
  ((Node.positions root).drop 1).find? (fun p => tagNameAt root p == some "body")

mutual
/-- Append extra children to the node at a path (the effect of the
repeated `main_soup.body.append(...)` calls). -/
def appendAt : Node → List Nat → List Node → Node
  | .elem nm a cs, [], extra => .elem nm a (cs ++ extra)
  | .text s, [], _ => .text s
  | .elem nm a cs, i :: p, extra => .elem nm a (appendAtList cs i p extra)
  | .text s, _ :: _, _ => .text s
def appendAtList : List Node → Nat → List Nat → List Node → List Node
  | [], _, _, _ => []
  | c :: cs, 0, p, extra => appendAt c p extra :: cs
  | c :: cs, i + 1, p, extra => c :: appendAtList cs i p extra
end

/-- The nodes one secondary document contributes to the merge: copies of
its body's children, or nothing when it has no body. -/
def mergeContribution (d : Node) : List Node :=
  match findBodyPath d with
  | none => []
  | some bp => (Node.children (nodeAt d bp)).map copyTag

/-- `Document._combine_documents` over already-parsed documents.
`none` models the two raising paths: an empty input list (`html_list[0]`
raises `IndexError`) and a body-less main document receiving
contributions (`main_soup.body` is `None` and `.append` raises). -/
def combineDocuments : List Node → Option Node
  | [] => none
  | main :: rest =>
    let extras := rest.flatMap mergeContribution
    match findBodyPath main with
    | some mbp => some (appendAt main mbp extras)
    | none => if extras.isEmpty then some main else none

/-! ExtendedTag.py helpers. -/

/-- Attributes with the `id` key removed, as in `is_identical_to`. -/
def attrsExceptId (ats : List (String × String)) : List (String × String) :=
  ats.filter (fun kv => kv.1 != "id")

/-- `ExtendedTag.is_identical_to`: same name and same attributes
ignoring `id`. -/
def isIdenticalTo (a b : Node) : Bool :=
  match a, b with
  | .elem n1 a1 _, .elem n2 a2 _ => n1 == n2 && attrsExceptId a1 == attrsExceptId a2
  | _, _ => false

/-- `ExtendedTag.is_text_tag`. -/
def isTextTag (n : Node) : Bool :=
  match n with
  | .elem nm _ _ =>
    (["p", "ul", "ol", "h1", "h2", "h3", "h4", "h5", "h6"] : List String).contains nm
  | .text _ => false

/-- `ExtendedTag.is_descendant_of`: `self != other and self in
other.descendants`, both per markup equality. -/
def isDescendantOf (selfN other : Node) : Bool :=
  (selfN != other) && (Node.properSubtrees other).contains selfN

/-- `ExtendedTag.find_parent_table`: the node itself when it is a
`table`, else the nearest ancestor named `table`. -/
def findParentTable (root : Node) (p : List Nat) : Option (List Nat) :=
  if tagNameAt root p == some "table" then some p
  else (ancestorPaths p).find? (fun q => tagNameAt root q == some "table")

mutual
/-- `ExtendedTag.get_first_rows` as one traversal: `find_all('tr')`
enumerates the `tr` descendants in preorder and `decompose` deletes the
ones from index `n` on; equivalently, walk the copy in preorder with a
budget of `n` rows, delete every `tr` met after the budget is spent, and
keep everything else.  A `tr` nested inside a deleted `tr` had a later
`find_all` index, so deleting it with its parent agrees with the
Python. -/
def pruneRows : Node → Nat → Option Node × Nat
  | .text s, k => (some (.text s), k)
  | .elem nm ats cs, k =>
    if nm == "tr" then
      match k with
      | 0 => (none, 0)
      | k' + 1 =>
        let r := pruneRowsList cs k'
        (some (.elem nm ats r.1), r.2)
    else
      let r := pruneRowsList cs k
      (some (.elem nm ats r.1), r.2)
def pruneRowsList : List Node → Nat → List Node × Nat
  | [], k => ([], k)
  | c :: cs, k =>
    let r := pruneRows c k
    let rs := pruneRowsList cs r.2
    (match r.1 with
     | some x => x :: rs.1
     | none => rs.1, rs.2)
end

/-- `get_first_rows(n)` on a table node. -/
def getFirstRows (t : Node) (n : Nat) : Node := ((pruneRows t n).1).getD t

/-- `ExtendedTag.remove_children_style`: drop the `style` attribute of
every direct element child. -/
def removeChildrenStyle : Node → Node
  | .elem nm ats cs =>
    .elem nm ats (cs.map (fun c =>
      match c with
      | .elem n2 a2 cs2 => .elem n2 (a2.filter (fun kv => kv.1 != "style")) cs2
      | t => t))
  | t => t

/-- `Document.find_distinct_children`: keep each element child only if
no previously kept child is `is_identical_to` it. -/
def findDistinctChildren (n : Node) : List Node :=
  n.children.foldl
    (fun acc c =>
      match c with
      | .elem _ _ _ => if acc.any (fun d => isIdenticalTo d c) then acc else acc ++ [c]
      | _ => acc) []

/-- `DataLocator._remove_similar_children`: a fresh tag built with
`new_tag(name, **attributes)` whose children are the distinct children
of the style-stripped container.  As in `_copy_tag`, attribute keys
among `newTagParamKeys` never reach the rebuilt tag — here a key
literally called `name` (or `attrs`) would in fact make the Python call
raise `TypeError`/`ValueError`; the total model collapses those raising
paths to dropping the pair, and no judged theorem evaluates this
branch. -/
def removeSimilarChildren (root : Node) (c : List Nat) : Node :=
  match nodeAt root c with
  | .elem nm ats _ =>
    .elem nm (ats.filter (fun kv => !(newTagParamKeys.contains kv.1)))
      (findDistinctChildren (removeChildrenStyle (nodeAt root c)))
  | t => t

/-! DataLocator.py: data model and the locate pipeline. -/

/-- `DataType`: the shape tag returned next to the sample. -/
inductive DataType where
  | DATA_NOT_FOUND
  | TABLE
  | TEXT
  | FIRST_ITEM
  | DISTINCT_ITEMS
  | CONTAINER
deriving Repr, DecidableEq

/-- One JSON value of the sample returned by the model: nested
mappings/sequences with string or integer leaves (`null` covers every
leaf `_extract_values` maps to nothing). -/
inductive Item where
  | str (s : String)
  | num (n : Int)
  | dict (kvs : List (String × Item))
  | list (xs : List Item)
  | null
deriving Repr

mutual
/-- Structural equality of JSON values. -/
def Item.beq : Item → Item → Bool
  | .str a, .str b => a == b
  | .num a, .num b => a == b
  | .dict a, .dict b => Item.beqKvs a b
  | .list a, .list b => Item.beqList a b
  | .null, .null => true
  | _, _ => false
def Item.beqKvs : List (String × Item) → List (String × Item) → Bool
  | [], [] => true
  | a :: as, b :: bs => a.1 == b.1 && Item.beq a.2 b.2 && Item.beqKvs as bs
  | _, _ => false
def Item.beqList : List Item → List Item → Bool
  | [], [] => true
  | a :: as, b :: bs => Item.beq a b && Item.beqList as bs
  | _, _ => false
end

mutual
theorem Item.itemBeq_iff : ∀ a b : Item, Item.beq a b = true ↔ a = b
  | .str _, .str _ => by simp [Item.beq]
  | .num _, .num _ => by simp [Item.beq]
  | .dict a, .dict b => by simp [Item.beq, Item.beqKvs_iff a b]
  | .list a, .list b => by simp [Item.beq, Item.itemBeqList_iff a b]
  | .null, .null => by simp [Item.beq]
  | .str _, .num _ => by simp [Item.beq]
  | .str _, .dict _ => by simp [Item.beq]
  | .str _, .list _ => by simp [Item.beq]
  | .str _, .null => by simp [Item.beq]
  | .num _, .str _ => by simp [Item.beq]
  | .num _, .dict _ => by simp [Item.beq]
  | .num _, .list _ => by simp [Item.beq]
  | .num _, .null => by simp [Item.beq]
  | .dict _, .str _ => by simp [Item.beq]
  | .dict _, .num _ => by simp [Item.beq]
  | .dict _, .list _ => by simp [Item.beq]
  | .dict _, .null => by simp [Item.beq]
  | .list _, .str _ => by simp [Item.beq]
  | .list _, .num _ => by simp [Item.beq]
  | .list _, .dict _ => by simp [Item.beq]
  | .list _, .null => by simp [Item.beq]
  | .null, .str _ => by simp [Item.beq]
  | .null, .num _ => by simp [Item.beq]
  | .null, .dict _ => by simp [Item.beq]
  | .null, .list _ => by simp [Item.beq]
theorem Item.beqKvs_iff : ∀ a b : List (String × Item), Item.beqKvs a b = true ↔ a = b
  | [], [] => by simp [Item.beqKvs]
  | [], _ :: _ => by simp [Item.beqKvs]
  | _ :: _, [] => by simp [Item.beqKvs]
  | (k1, v1) :: as, (k2, v2) :: bs => by
      simp [Item.beqKvs, Item.itemBeq_iff v1 v2, Item.beqKvs_iff as bs, and_assoc]
theorem Item.itemBeqList_iff : ∀ a b : List Item, Item.beqList a b = true ↔ a = b
  | [], [] => by simp [Item.beqList]
  | [], _ :: _ => by simp [Item.beqList]
  | _ :: _, [] => by simp [Item.beqList]
  | a :: as, b :: bs => by
      simp [Item.beqList, Item.itemBeq_iff a b, Item.itemBeqList_iff as bs]
end

instance : DecidableEq Item := fun a b =>
  decidable_of_iff (Item.beq a b = true) (Item.itemBeq_iff a b)

mutual
/-- `DataLocator._extract_values`: recursively flatten a JSON value
into the list of its scalar leaves rendered as strings, in order. -/
def extractValues : Item → List String
  | .str s => [s]
  | .num n => [toString n]
  | .dict kvs => extractValuesKvs kvs
  | .list xs => extractValuesList xs
  | .null => []
def extractValuesKvs : List (String × Item) → List String
  | [] => []
  | kv :: rest => extractValues kv.2 ++ extractValuesKvs rest
def extractValuesList : List Item → List String
  | [] => []
  | x :: rest => extractValues x ++ extractValuesList rest
end

/-- A proportion as the exact value of Python's `a / b` on naturals. -/
abbrev Proportion := Nat × Nat

/-- Equality of two such quotients (`==` on the floats). -/
def ratEq (p q : Proportion) : Bool := p.1 * q.2 == q.1 * p.2

/-- Strict order on two such quotients (`>` on the floats). -/
def ratGt (p q : Proportion) : Bool := q.1 * p.2 < p.1 * q.2

/-- The coverage test `proportion > 0.35`. -/
def gtThreshold (p : Proportion) : Bool := 35 * p.2 < 100 * p.1

/-- `DocumentData`: container, the two anchor elements it was derived
from (all as node paths in the current document), and the coverage
proportion (initially `0.0`). -/
structure DocumentData where
  container : Option (List Nat)
  element1 : Option (List Nat)
  element2 : Option (List Nat)
  proportion : Proportion
deriving Repr, DecidableEq

/-- `DocumentData()` with all defaults. -/
def emptyDocumentData : DocumentData := ⟨none, none, none, (0, 1)⟩

/-- Markup equality of two optional node references (`None == None` is
true, `None` never equals a tag). -/
def optNodeEq (root : Node) (a b : Option (List Nat)) : Bool :=
  match a, b with
  | none, none => true
  | some p, some q => subtreeAt root p == subtreeAt root q
  | _, _ => false

/-- Python `==` on two `DocumentData` dataclass instances: field-wise,
with tags compared by markup. -/
def pyEqDocumentData (root : Node) (a b : DocumentData) : Bool :=
  optNodeEq root a.container b.container && optNodeEq root a.element1 b.element1 &&
    optNodeEq root a.element2 b.element2 && ratEq a.proportion b.proportion

/-- `is_descendant_of` lifted to the optional container references; a
`None` container would raise in Python and never reaches this test in
the pipeline. -/
def optIsDescendantOf (root : Node) (b a : Option (List Nat)) : Bool :=
  match b, a with
  | some pb, some pa => isDescendantOf (nodeAt root pb) (nodeAt root pa)
  | _, _ => false

/-- One insertion into an insertion-ordered map, the behaviour of a
Python dict keyed by bs4 tags: `Tag.__hash__` is `str(self).__hash__()`
and `Tag.__eq__` is markup equality, so two keys collide exactly when
their markup is equal (`optNodeEq`).  A colliding insertion keeps the
first key at its position and takes the new value; a fresh key goes to
the back. -/
def dictInsert (root : Node) (m : List (Option (List Nat) × DocumentData))
    (k : Option (List Nat)) (v : DocumentData) :
    List (Option (List Nat) × DocumentData) :=
  if m.any (fun kv => optNodeEq root kv.1 k) then
    m.map (fun kv => if optNodeEq root kv.1 k then (kv.1, v) else kv)
  else m ++ [(k, v)]

/-- `DataLocator._filter_unique_containers`: `{d.container: d for d in
data}.values()` — one entry per markup-equality class of the container,
first occurrence decides the position, last occurrence decides the
value. -/
def filterUniqueContainers (root : Node) (data : List DocumentData) : List DocumentData :=
  (data.foldl (fun m d => dictInsert root m d.container d) []).map Prod.snd

/-- The text the coverage filter scans: `item.container.get_text()`.  A
`None` container would raise in Python; the locator only builds
candidates whose container is set. -/
def containerText (root : Node) (d : DocumentData) : String :=
  match d.container with
  | some p => (nodeAt root p).getText
  | none => ""

/-- `sum(string.lower() in container_text for string in
self._sample_strings)`: occurrences are counted with multiplicity over
the pool list. -/
def stringsFound (pool : List String) (t : String) : Nat :=
  (pool.filter (fun s => lowerIn s t)).length

/-- `DataLocator._filter_data`: set each candidate's proportion to
`strings_found / len(pool)` and keep the candidates above `0.35`. -/
def filterData (root : Node) (pool : List String) (data : List DocumentData) :
    List DocumentData :=
  (data.map (fun d =>
    DocumentData.mk d.container d.element1 d.element2
      (stringsFound pool (containerText root d), pool.length))).filter
    (fun d => gtThreshold d.proportion)

/-- `DataLocator._filter_wrappers`: drop every candidate for which some
other (dataclass-unequal) candidate of the same proportion has a
container that `is_descendant_of` its container. -/
def filterWrappers (root : Node) (data : List DocumentData) : List DocumentData :=
  data.filter (fun a => !(data.any (fun b =>
    ratEq a.proportion b.proportion && !(pyEqDocumentData root a b) &&
      optIsDescendantOf root b.container a.container)))

/-- `DataLocator._pairs`: `itertools.product` of the two anchor lists. -/
def anchorPairs (a b : List (List Nat)) : List (List Nat × List Nat) :=
  a.flatMap (fun x => b.map (fun y => (x, y)))

/-- The cap of `_find_data_container`: when more than 1000 pairs exist,
`random.sample(element_pairs, 1000)` picks 1000 of them; the sampler is
a parameter `sel` of the model. -/
def cappedPairs (sel : List (List Nat × List Nat) → List (List Nat × List Nat))
    (a b : List (List Nat)) : List (List Nat × List Nat) :=
  let ps := anchorPairs a b
  if 1000 < ps.length then sel ps else ps

/-- The candidate records built in `_find_data_container`'s loop: one
`DocumentData(container, element1, element2)` per retained pair. -/
def mkCandidates (root : Node) (ps : List (List Nat × List Nat)) : List DocumentData :=
  ps.map (fun pr => DocumentData.mk (findCommonAncestor root pr.1 pr.2)
    (some pr.1) (some pr.2) (0, 1))

/-- Python's `max(data, key=...)` on a non-empty list: the first
element of maximal proportion. -/
def maxByProportion (d : DocumentData) (ds : List DocumentData) : DocumentData :=
  ds.foldl (fun best x => if ratGt x.proportion best.proportion then x else best) d

/-- `DataLocator._find_data_container`. -/
def findDataContainer (root : Node)
    (sel : List (List Nat × List Nat) → List (List Nat × List Nat))
    (pool : List String) (e1 e2 : List (List Nat)) : DocumentData :=
  let data := filterUniqueContainers root (mkCandidates root (cappedPairs sel e1 e2))
  if data.length = 1 then data.headD emptyDocumentData
  else
    let data2 := filterData root pool data
    if data2.length = 1 then data2.headD emptyDocumentData
    else
      match filterWrappers root data2 with
      | [] => emptyDocumentData
      | d :: ds => maxByProportion d ds

/-- The preprocessing of `_find_data_elements`: a string that ends in
`...` is looked up with its trailing periods stripped. -/
def processQueryStrings (ss : List String) : List String :=
  ss.map (fun s => if endsWithDots s then rstripDots s else s)

/-- `DataLocator._generate_data_sample`, with the model's reply as an
input: the reply is used only when it carries more than one record. -/
def generateDataSample (resp : Option (List Item)) : Option (List Item) :=
  match resp with
  | some l => if 1 < l.length then some l else none
  | none => none

/-- The element lookup of `_find_data_elements` (extending with an
empty result is a no-op, so the `if new_data_elements` guard is
dropped). -/
def findDataElements (root : Node) (bodyPath : List Nat) (ss : List String) :
    List (List Nat) :=
  ss.flatMap (findElementsByText root bodyPath)

/-- `DataLocator._find_data_structure`.  The state field
`self._sample_strings` is threaded explicitly: it is *overwritten* with
the leaf strings of all records of the current sample (line 106), then
extended with the processed strings of the first and of the last record
(line 140, reached once per `_find_data_elements` call).  Returns the
result and the final pool. -/
def findDataStructure (root : Node) (bodyPath : List Nat)
    (sel : List (List Nat × List Nat) → List (List Nat × List Nat))
    (pool : List String) (resp : Option (List Item)) :
    Option DocumentData × List String :=
  match generateDataSample resp with
  | none => (none, pool)
  | some sample =>
    let pool0 := sample.flatMap extractValues
    let ss1 := processQueryStrings (extractValues (sample.headD .null))
    let pool1 := pool0 ++ ss1
    let e1 := findDataElements root bodyPath ss1
    let ss2 := processQueryStrings (extractValues (sample.getLastD .null))
    let pool2 := pool1 ++ ss2
    let e2 := findDataElements root bodyPath ss2
    if e1 = [] ∨ e2 = [] then (none, pool2)
    else (some (findDataContainer root sel pool2 e1 e2), pool2)

/-- `DataLocator._find_data`: one attempt on the current document; on
failure and when embedded frame documents are available, the document is
replaced by the merged one and a second attempt runs (with a second
model reply).  Returns the result, the document the browser holds
afterwards (tree and body path), and the final pool. -/
def findData (doc1 : Node) (bp1 : List Nat) (r1 : Option (List Item))
    (embedded : Option (Node × List Nat)) (r2 : Option (List Item))
    (sel : List (List Nat × List Nat) → List (List Nat × List Nat))
    (pool : List String) :
    Option DocumentData × (Node × List Nat) × List String :=
  match findDataStructure doc1 bp1 sel pool r1 with
  | (some d, pool1) => (some d, (doc1, bp1), pool1)
  | (none, pool1) =>
    match embedded with
    | none => (none, (doc1, bp1), pool1)
    | some db =>
      let r := findDataStructure db.1 db.2 sel pool1 r2
      (r.1, db, r.2)

/-- `DataLocator._find_first_item`: the child of the container on
`element1`'s path, when it is `is_identical_to` the corresponding child
on `element2`'s path. -/
def findFirstItem (root : Node) (d : DocumentData) : Option (List Nat) :=
  match d.container, d.element1, d.element2 with
  | some c, some e1, some e2 =>
    let cN := nodeAt root c
    let a1 := (findAncestors root e1 cN).headD []
    let a2 := (findAncestors root e2 cN).headD []
    if isIdenticalTo (nodeAt root a1) (nodeAt root a2) then some a1 else none
  | _, _, _ => none

/-- `DataLocator.find`: locate the data, then classify.  File saving is
outside the model; the returned pair is the `(sample, DataType)` the
method returns. -/
def find (doc1 : Node) (bp1 : List Nat) (r1 : Option (List Item))
    (embedded : Option (Node × List Nat)) (r2 : Option (List Item))
    (sel : List (List Nat × List Nat) → List (List Nat × List Nat))
    (pool : List String) (attempts : Nat) : Node × DataType :=
  let r := findData doc1 bp1 r1 embedded r2 sel pool
  let doc := r.2.1.1
  let bp := r.2.1.2
  match r.1 with
  | none => (nodeAt doc bp, .DATA_NOT_FOUND)
  | some d =>
    match d.container with
    | none => (nodeAt doc bp, .DATA_NOT_FOUND)
    | some c =>
      if 1 < attempts then (nodeAt doc c, .CONTAINER)
      else
        match findParentTable doc c with
        | some t => (getFirstRows (nodeAt doc t) 15, .TABLE)
        | none =>
          match findFirstItem doc d with
          | some fi =>
            if isTextTag (nodeAt doc fi) then (nodeAt doc c, .TEXT)
            else (nodeAt doc fi, .FIRST_ITEM)
          | none => (removeSimilarChildren doc c, .DISTINCT_ITEMS)

/-! Specification-side definitions.  These follow the wording of the
specification (not the code) and exist to be compared against the
embedded code. -/

/-- Spec-side reading for the matcher: the concatenation of a node's
*direct* text children, its own direct text content. -/
def directOwnText (n : Node) : String :=
  n.children.foldl (fun acc c =>
    match c with
    | .text s => acc ++ s
    | _ => acc) ""

/-- Spec-side coverage proportion: strings found over the *distinct*
pooled leaf strings. -/
def distinctProportion (pool : List String) (t : String) : Proportion :=
  ((pool.dedup.filter (fun s => lowerIn s t)).length, pool.dedup.length)

/-- Spec-side strict-descendant relation on node instances: the
ancestor's path is a proper prefix of the descendant's path. -/
def strictDescPath (q p : List Nat) : Bool := p.isPrefixOf q && !(p == q)

/-- The pool `self._sample_strings` holds when the coverage filter of
one attempt runs: the leaf strings of every record of the current
sample, followed by the processed strings of the first and of the last
record again. -/
def attemptPool (sample : List Item) : List String :=
  sample.flatMap extractValues
    ++ processQueryStrings (extractValues (sample.headD .null))
    ++ processQueryStrings (extractValues (sample.getLastD .null))

/-! Concrete documents and samples used by counterexamples and
witnesses. -/

/-- A page whose data region `div[p "ax", p "bx"]` coexists with a
stray copy of the anchor text `ax` directly under the body. -/
def exBody : Node := .elem "body" [] [
  .elem "div" [] [.elem "p" [] [.text "ax"], .elem "p" [] [.text "bx"]],
  .elem "p" [] [.text "ax"]]

def exRoot : Node := .elem "[document]" [] [.elem "html" [] [exBody]]

/-- A four-record sample: anchors `ax`/`bx` plus two middle records
whose strings `mx`, `nx` appear nowhere on the page. -/
def exResp : Option (List Item) := some [
  .dict [("a", .str "ax")], .dict [("m", .str "mx")],
  .dict [("n", .str "nx")], .dict [("b", .str "bx")]]

/-- C1 — counterexample.  Running the locate attempt on `exRoot` with
`exResp`, the coverage filter keeps the `div` candidate with proportion
4/6: every pool entry is counted with multiplicity (the anchors appear
twice in the pool) and middle-record strings dilute it.  The claimed
formula — found distinct strings over total distinct pooled strings —
yields 2/4, a different rational, and the pool is rebuilt from the
current sample, ignoring the `"zz"` string pooled by a previous attempt
of the session. -/
theorem claim_C1_counterexample :
    (findDataStructure exRoot [0, 0] id ["zz"] exResp).1 =
      some ⟨some [0, 0, 0], some [0, 0, 0, 0], some [0, 0, 0, 1], (4, 6)⟩ ∧
    (findDataStructure exRoot [0, 0] id ["zz"] exResp).2 =
      ["ax", "mx", "nx", "bx", "ax", "bx"] ∧
    findDataStructure exRoot [0, 0] id ["zz"] exResp =
      findDataStructure exRoot [0, 0] id [] exResp ∧
    distinctProportion (findDataStructure exRoot [0, 0] id ["zz"] exResp).2
      ((nodeAt exRoot [0, 0, 0]).getText) = (2, 4) ∧
    ratEq (4, 6) (2, 4) = false := by
  refine ⟨by decide, by decide, by decide, by decide, by decide⟩

/-- C1 — amended.  In every locate attempt whose sample passes the
size check, the pool the coverage filter divides by is rebuilt from the
current sample alone (`attemptPool`), so the whole attempt is
independent of strings pooled by earlier attempts; and the filter keeps
exactly the candidates whose proportion — pool entries counted *with
multiplicity* that occur case-insensitively in the container's text,
over the length of that pool list — exceeds 0.35, storing that
proportion on the candidate. -/
theorem claim_C1_amended (root : Node) (bp : List Nat)
    (sel : List (List Nat × List Nat) → List (List Nat × List Nat))
    (pool : List String) (resp : Option (List Item)) (sample : List Item)
    (h : generateDataSample resp = some sample) :
    (findDataStructure root bp sel pool resp).2 = attemptPool sample ∧
    findDataStructure root bp sel pool resp = findDataStructure root bp sel [] resp ∧
    (∀ (data : List DocumentData) (d : DocumentData),
      d ∈ filterData root (attemptPool sample) data ↔
        gtThreshold d.proportion = true ∧
        ∃ d0 ∈ data,
          d = ⟨d0.container, d0.element1, d0.element2,
            (stringsFound (attemptPool sample) (containerText root d0),
             (attemptPool sample).length)⟩) := by
  refine ⟨?_, ?_, ?_⟩
  · simp only [findDataStructure, h, attemptPool]
    split <;> rfl
  · simp only [findDataStructure, h]
  · intro data d
    simp only [filterData, List.mem_filter, List.mem_map]
    constructor
    · rintro ⟨⟨d0, hd0, rfl⟩, hgt⟩
      exact ⟨hgt, d0, hd0, rfl⟩
    · rintro ⟨hgt, d0, hd0, rfl⟩
      exact ⟨⟨d0, hd0, rfl⟩, hgt⟩

/-- C1 — witness for the amended theorem at a concrete attempt. -/
theorem claim_C1_witness :
    generateDataSample exResp = some [
      .dict [("a", .str "ax")], .dict [("m", .str "mx")],
      .dict [("n", .str "nx")], .dict [("b", .str "bx")]] ∧
    ((findDataStructure exRoot [0, 0] id ["qq"] exResp).2 = attemptPool [
      .dict [("a", .str "ax")], .dict [("m", .str "mx")],
      .dict [("n", .str "nx")], .dict [("b", .str "bx")]] ∧
     findDataStructure exRoot [0, 0] id ["qq"] exResp =
       findDataStructure exRoot [0, 0] id [] exResp ∧
     (∀ (data : List DocumentData) (d : DocumentData),
       d ∈ filterData exRoot (attemptPool [
         .dict [("a", .str "ax")], .dict [("m", .str "mx")],
         .dict [("n", .str "nx")], .dict [("b", .str "bx")]]) data ↔
         gtThreshold d.proportion = true ∧
         ∃ d0 ∈ data,
           d = ⟨d0.container, d0.element1, d0.element2,
             (stringsFound (attemptPool [
               .dict [("a", .str "ax")], .dict [("m", .str "mx")],
               .dict [("n", .str "nx")], .dict [("b", .str "bx")]])
               (containerText exRoot d0),
              (attemptPool [
               .dict [("a", .str "ax")], .dict [("m", .str "mx")],
               .dict [("n", .str "nx")], .dict [("b", .str "bx")]]).length)⟩)) :=
  ⟨by decide, claim_C1_amended exRoot [0, 0] id ["qq"] exResp _ (by decide)⟩

/-- C10 — confirmed.  Whenever a locate attempt reaches candidate
filtering (its result is `some`), the pool list the coverage filter
divides by is non-empty — anchors for the first record can only be
found if that record contributed at least one leaf string, which is in
the pool — and every proportion built by the filter carries exactly
that pool length as its denominator, so the division never divides by
zero. -/
theorem claim_C10 (root : Node) (bp : List Nat)
    (sel : List (List Nat × List Nat) → List (List Nat × List Nat))
    (pool : List String) (resp : Option (List Item)) :
    ((findDataStructure root bp sel pool resp).1.isSome →
      (findDataStructure root bp sel pool resp).2 ≠ []) ∧
    (∀ (pl : List String) (data : List DocumentData) (d : DocumentData),
      d ∈ filterData root pl data → d.proportion.2 = pl.length) := by
  constructor
  · unfold findDataStructure
    cases hresp : generateDataSample resp with
    | none => simp
    | some sample =>
      intro hsome
      dsimp only at hsome ⊢
      by_cases hc :
          findDataElements root bp
            (processQueryStrings (extractValues (sample.headD .null))) = [] ∨
          findDataElements root bp
            (processQueryStrings (extractValues (sample.getLastD .null))) = []
      · rw [if_pos hc] at hsome
        simp at hsome
      · rw [if_neg hc]
        have h1 : findDataElements root bp
            (processQueryStrings (extractValues (sample.headD .null))) ≠ [] := by
          intro hnil
          exact hc (Or.inl hnil)
        have hss : processQueryStrings (extractValues (sample.headD .null)) ≠ [] := by
          intro hnil
          refine h1 ?_
          unfold findDataElements
          rw [hnil]
          rfl
        intro hcon
        rcases List.append_eq_nil.mp hcon with ⟨h12, _⟩
        rcases List.append_eq_nil.mp h12 with ⟨_, hnil⟩
        exact hss hnil
  · intro pl data d hd
    simp only [filterData, List.mem_filter, List.mem_map] at hd
    obtain ⟨⟨d0, _, rfl⟩, _⟩ := hd
    rfl

/-- C10 — witness at a concrete attempt that reaches the filter. -/
theorem claim_C10_witness :
    ((findDataStructure exRoot [0, 0] id [] exResp).1.isSome →
      (findDataStructure exRoot [0, 0] id [] exResp).2 ≠ []) ∧
    (∀ (pl : List String) (data : List DocumentData) (d : DocumentData),
      d ∈ filterData exRoot pl data → d.proportion.2 = pl.length) :=
  claim_C10 exRoot [0, 0] id [] exResp

/-! Lemmas about the markup-keyed dict built by
`filterUniqueContainers`.  The key relation `optNodeEq root` is an
equivalence on the stored references. -/

theorem optNodeEq_refl (root : Node) (k : Option (List Nat)) : optNodeEq root k k = true := by
  cases k <;> simp [optNodeEq]

theorem optNodeEq_symm (root : Node) (a b : Option (List Nat))
    (h : optNodeEq root a b = true) : optNodeEq root b a = true := by
  cases a with
  | none =>
    cases b with
    | none => rfl
    | some q => simp [optNodeEq] at h
  | some p =>
    cases b with
    | none => simp [optNodeEq] at h
    | some q =>
      simp only [optNodeEq, beq_iff_eq] at h ⊢
      exact h.symm

theorem optNodeEq_trans (root : Node) (a b c : Option (List Nat))
    (h1 : optNodeEq root a b = true) (h2 : optNodeEq root b c = true) :
    optNodeEq root a c = true := by
  cases a with
  | none =>
    cases b with
    | none => exact h2
    | some q => simp [optNodeEq] at h1
  | some p =>
    cases b with
    | none => simp [optNodeEq] at h1
    | some q =>
      cases c with
      | none => simp [optNodeEq] at h2
      | some r =>
        simp only [optNodeEq, beq_iff_eq] at h1 h2 ⊢
        exact h1.trans h2

theorem dictInsert_entry (root : Node) (m : List (Option (List Nat) × DocumentData))
    (d : DocumentData) :
    ∀ kv ∈ dictInsert root m d.container d,
      kv ∈ m ∨ (optNodeEq root kv.1 d.container = true ∧ kv.2 = d) := by
  intro kv hkv
  unfold dictInsert at hkv
  split at hkv
  · rcases List.mem_map.mp hkv with ⟨kv0, hkv0, hrw⟩
    by_cases hk : optNodeEq root kv0.1 d.container = true
    · right
      rw [← hrw, if_pos hk]
      exact ⟨hk, rfl⟩
    · left
      rw [← hrw, if_neg hk]
      exact hkv0
  · rcases List.mem_append.mp hkv with h | h
    · exact Or.inl h
    · right
      have hkv2 : kv = (d.container, d) := by simpa using h
      rw [hkv2]
      exact ⟨optNodeEq_refl root d.container, rfl⟩

theorem dictInsert_map_fst (root : Node) (m : List (Option (List Nat) × DocumentData))
    (k : Option (List Nat)) (v : DocumentData) :
    (dictInsert root m k v).map Prod.fst = m.map Prod.fst ∨
      ((dictInsert root m k v).map Prod.fst = m.map Prod.fst ++ [k] ∧
        ∀ k' ∈ m.map Prod.fst, optNodeEq root k' k = false) := by
  unfold dictInsert
  by_cases hany : (m.any (fun kv => optNodeEq root kv.1 k)) = true
  · left
    rw [if_pos hany, List.map_map]
    refine List.map_congr_left ?_
    intro kv _
    by_cases hk : optNodeEq root kv.1 k = true
    · simp only [Function.comp]
      rw [if_pos hk]
    · simp only [Function.comp]
      rw [if_neg hk]
  · right
    rw [if_neg hany]
    refine ⟨by simp, ?_⟩
    intro k' hk'
    rcases List.mem_map.mp hk' with ⟨kv, hkv, hfst⟩
    cases hval : optNodeEq root k' k with
    | false => rfl
    | true =>
      exfalso
      refine hany (List.any_eq_true.mpr ⟨kv, hkv, ?_⟩)
      rw [hfst]
      exact hval

theorem dictInsert_fst_pairwise (root : Node) (m : List (Option (List Nat) × DocumentData))
    (k : Option (List Nat)) (v : DocumentData)
    (h : (m.map Prod.fst).Pairwise (fun k1 k2 => optNodeEq root k1 k2 = false)) :
    ((dictInsert root m k v).map Prod.fst).Pairwise
      (fun k1 k2 => optNodeEq root k1 k2 = false) := by
  rcases dictInsert_map_fst root m k v with heq | ⟨heq, hall⟩
  · rw [heq]
    exact h
  · rw [heq, List.pairwise_append]
    refine ⟨h, List.pairwise_singleton _ _, ?_⟩
    intro a ha b hb
    rw [List.mem_singleton] at hb
    subst hb
    exact hall a ha

theorem dictInsert_fst_mono (root : Node) (m : List (Option (List Nat) × DocumentData))
    (k : Option (List Nat)) (v : DocumentData) (k' : Option (List Nat))
    (h : k' ∈ m.map Prod.fst) : k' ∈ (dictInsert root m k v).map Prod.fst := by
  rcases dictInsert_map_fst root m k v with heq | ⟨heq, _⟩
  · rw [heq]
    exact h
  · rw [heq]
    exact List.mem_append.mpr (Or.inl h)

theorem dictInsert_fst_self (root : Node) (m : List (Option (List Nat) × DocumentData))
    (k : Option (List Nat)) (v : DocumentData) :
    ∃ k0 ∈ (dictInsert root m k v).map Prod.fst, optNodeEq root k0 k = true := by
  unfold dictInsert
  by_cases hany : (m.any (fun kv => optNodeEq root kv.1 k)) = true
  · rw [if_pos hany]
    rcases List.any_eq_true.mp hany with ⟨kv, hkv, hk⟩
    refine ⟨kv.1, ?_, hk⟩
    rw [List.map_map]
    refine List.mem_map.mpr ⟨kv, hkv, ?_⟩
    simp only [Function.comp]
    rw [if_pos hk]
  · rw [if_neg hany]
    exact ⟨k, by simp, optNodeEq_refl root k⟩

theorem foldl_dictInsert_spec (root : Node) (data : List DocumentData) :
    ∀ acc : List (Option (List Nat) × DocumentData),
    (∀ kv ∈ acc, optNodeEq root kv.1 kv.2.container = true) →
    ((acc.map Prod.fst).Pairwise (fun k1 k2 => optNodeEq root k1 k2 = false)) →
    (∀ kv ∈ data.foldl (fun m d => dictInsert root m d.container d) acc,
        optNodeEq root kv.1 kv.2.container = true ∧ (kv ∈ acc ∨ kv.2 ∈ data)) ∧
    (((data.foldl (fun m d => dictInsert root m d.container d) acc).map Prod.fst).Pairwise
        (fun k1 k2 => optNodeEq root k1 k2 = false)) ∧
    (∀ k ∈ acc.map Prod.fst,
        k ∈ (data.foldl (fun m d => dictInsert root m d.container d) acc).map Prod.fst) ∧
    (∀ d ∈ data,
        ∃ k ∈ (data.foldl (fun m d => dictInsert root m d.container d) acc).map Prod.fst,
          optNodeEq root k d.container = true) := by
  induction data with
  | nil =>
    intro acc h1 h2
    exact ⟨fun kv hkv => ⟨h1 kv hkv, Or.inl hkv⟩, h2, fun k hk => hk,
      fun d hd => absurd hd (by simp)⟩
  | cons d rest ih =>
    intro acc h1 h2
    have h1' : ∀ kv ∈ dictInsert root acc d.container d,
        optNodeEq root kv.1 kv.2.container = true := by
      intro kv hkv
      rcases dictInsert_entry root acc d kv hkv with h | ⟨hk, hv⟩
      · exact h1 kv h
      · rw [hv]
        exact hk
    have h2' := dictInsert_fst_pairwise root acc d.container d h2
    obtain ⟨ha, hb, hc, hd2⟩ := ih (dictInsert root acc d.container d) h1' h2'
    refine ⟨?_, hb, ?_, ?_⟩
    · intro kv hkv
      obtain ⟨hfst, hmem⟩ := ha kv hkv
      refine ⟨hfst, ?_⟩
      rcases hmem with h | h
      · rcases dictInsert_entry root acc d kv h with h' | ⟨_, hv⟩
        · exact Or.inl h'
        · exact Or.inr (by rw [hv]; exact List.mem_cons_self _ _)
      · exact Or.inr (List.mem_cons_of_mem _ h)
    · intro k hk
      exact hc k (dictInsert_fst_mono root acc d.container d k hk)
    · intro d' hd'
      rcases List.mem_cons.mp hd' with h | h
      · subst h
        obtain ⟨k0, hk0mem, hk0⟩ := dictInsert_fst_self root acc d'.container d'
        exact ⟨k0, hc k0 hk0mem, hk0⟩
      · exact hd2 d' h

/-- Tree for the dedup counterexample: two markup-identical `div`s at
distinct positions. -/
def c2root : Node :=
  .elem "body" [] [.elem "div" [] [.text "x"], .elem "div" [] [.text "x"]]

/-- C2 — counterexample.  Two candidates whose containers are
*different node instances* (paths `[0]` and `[1]`) with identical
markup do **not** both survive the dedup step: bs4 hashes tags by their
string rendering and compares them by markup, so the dict merges the
two entries into one (the second value at the first position), leaving
a single candidate. -/
theorem claim_C2_counterexample :
    filterUniqueContainers c2root
      [⟨some [0], none, none, (0, 1)⟩, ⟨some [1], none, none, (0, 1)⟩] =
      [⟨some [1], none, none, (0, 1)⟩] ∧
    ([0] : List Nat) ≠ [1] ∧
    subtreeAt c2root [0] = subtreeAt c2root [1] ∧
    (filterUniqueContainers c2root
      [⟨some [0], none, none, (0, 1)⟩, ⟨some [1], none, none, (0, 1)⟩]).length = 1 := by
  refine ⟨by decide, by decide, by decide, by decide⟩

/-- C2 — amended.  The dedup step keys a Python dict by the container
tag; bs4 `Tag.__hash__` is `str(self).__hash__()` and `Tag.__eq__` is
markup equality, so exactly one candidate survives per *markup-equality
class* of the container, not per node instance: the survivors come from
the input, their containers are pairwise markup-distinct, every input
container's markup class stays represented, two candidates with
markup-equal containers (same or different instances) are merged into
the later one, and two candidates with markup-distinct containers both
survive. -/
theorem claim_C2 (root : Node) (data : List DocumentData) :
    ((filterUniqueContainers root data).Pairwise
        (fun d1 d2 => optNodeEq root d1.container d2.container = false) ∧
      (∀ d' ∈ filterUniqueContainers root data, d' ∈ data) ∧
      (∀ d ∈ data, ∃ d' ∈ filterUniqueContainers root data,
        optNodeEq root d'.container d.container = true)) ∧
    (∀ d1 d2 : DocumentData, optNodeEq root d1.container d2.container = true →
      filterUniqueContainers root [d1, d2] = [d2]) ∧
    (∀ d1 d2 : DocumentData, optNodeEq root d1.container d2.container = false →
      filterUniqueContainers root [d1, d2] = [d1, d2]) := by
  obtain ⟨ha, hb, _, hd2⟩ := foldl_dictInsert_spec root data [] (by simp) (by simp)
  refine ⟨⟨?_, ?_, ?_⟩, ?_, ?_⟩
  · unfold filterUniqueContainers
    rw [List.pairwise_map]
    rw [List.pairwise_map] at hb
    refine List.Pairwise.imp_of_mem ?_ hb
    intro kv1 kv2 h1mem h2mem hk
    cases hv : optNodeEq root kv1.2.container kv2.2.container with
    | false => rfl
    | true =>
      exfalso
      have e1 := (ha kv1 h1mem).1
      have e2 := (ha kv2 h2mem).1
      have t1 := optNodeEq_trans root kv1.1 kv1.2.container kv2.2.container e1 hv
      have t2 := optNodeEq_trans root kv1.1 kv2.2.container kv2.1 t1
        (optNodeEq_symm root kv2.1 kv2.2.container e2)
      rw [t2] at hk
      exact Bool.noConfusion hk
  · intro d' hd'
    unfold filterUniqueContainers at hd'
    rcases List.mem_map.mp hd' with ⟨kv, hkv, hsnd⟩
    rcases (ha kv hkv).2 with h | h
    · exact absurd h (by simp)
    · rw [← hsnd]
      exact h
  · intro d hdmem
    obtain ⟨k, hkmem, hkeq⟩ := hd2 d hdmem
    rcases List.mem_map.mp hkmem with ⟨kv, hkv, hfst⟩
    refine ⟨kv.2, List.mem_map.mpr ⟨kv, hkv, rfl⟩, ?_⟩
    have e1 := (ha kv hkv).1
    rw [hfst] at e1
    exact optNodeEq_trans root kv.2.container k d.container
      (optNodeEq_symm root k kv.2.container (by rw [← hfst]; exact (ha kv hkv).1)) hkeq
  · intro d1 d2 h
    simp [filterUniqueContainers, dictInsert, h]
  · intro d1 d2 h
    simp [filterUniqueContainers, dictInsert, h]

/-- C2 — witness: on the concrete tree, markup-equal containers at
distinct paths are merged into the later candidate, and markup-distinct
containers both survive. -/
theorem claim_C2_witness :
    optNodeEq c2root (some [0]) (some [1]) = true ∧
    filterUniqueContainers c2root
      [⟨some [0], none, none, (0, 1)⟩, ⟨some [1], none, none, (0, 1)⟩] =
      [⟨some [1], none, none, (0, 1)⟩] ∧
    optNodeEq c2root (some [0]) none = false ∧
    filterUniqueContainers c2root
      [⟨some [0], none, none, (0, 1)⟩, ⟨none, none, none, (0, 1)⟩] =
      [⟨some [0], none, none, (0, 1)⟩, ⟨none, none, none, (0, 1)⟩] :=
  ⟨by decide,
   (claim_C2 c2root [⟨some [0], none, none, (0, 1)⟩, ⟨some [1], none, none, (0, 1)⟩]).2.1
     ⟨some [0], none, none, (0, 1)⟩ ⟨some [1], none, none, (0, 1)⟩ (by decide),
   by decide,
   (claim_C2 c2root [⟨some [0], none, none, (0, 1)⟩, ⟨none, none, none, (0, 1)⟩]).2.2
     ⟨some [0], none, none, (0, 1)⟩ ⟨none, none, none, (0, 1)⟩ (by decide)⟩

/-! Observation functions and lemmas for the multi-document merger. -/

mutual
/-- Every tag name of a subtree, in preorder. -/
def nodeNames : Node → List String
  | .text _ => []
  | .elem nm _ cs => nm :: nodeNamesList cs
def nodeNamesList : List Node → List String
  | [] => []
  | c :: cs => nodeNames c ++ nodeNamesList cs
end

mutual
/-- Every text string of a subtree, in document order. -/
def nodeTexts : Node → List String
  | .text s => [s]
  | .elem _ _ cs => nodeTextsList cs
def nodeTextsList : List Node → List String
  | [] => []
  | c :: cs => nodeTexts c ++ nodeTextsList cs
end

mutual
/-- Every attribute name-value pair of a subtree, in preorder. -/
def nodeAttrsAll : Node → List (String × String)
  | .text _ => []
  | .elem _ ats cs => ats ++ nodeAttrsAllList cs
def nodeAttrsAllList : List Node → List (String × String)
  | [] => []
  | c :: cs => nodeAttrsAll c ++ nodeAttrsAllList cs
end

mutual
theorem copyTag_spec : ∀ t : Node,
    nodeNames (copyTag t) = nodeNames t ∧
    nodeTexts (copyTag t) = nodeTexts t ∧
    nodeAttrsAll (copyTag t) = (nodeAttrsAll t).filter (fun kv => !(newTagParamKeys.contains kv.1))
  | .text s => by
      simp [copyTag, nodeNames, nodeTexts, nodeAttrsAll]
  | .elem nm ats cs => by
      obtain ⟨h1, h2, h3⟩ := copyTagList_spec cs
      simp [copyTag, nodeNames, nodeTexts, nodeAttrsAll, h1, h2, h3, List.filter_append]
theorem copyTagList_spec : ∀ l : List Node,
    nodeNamesList (copyTagList l) = nodeNamesList l ∧
    nodeTextsList (copyTagList l) = nodeTextsList l ∧
    nodeAttrsAllList (copyTagList l) = (nodeAttrsAllList l).filter (fun kv => !(newTagParamKeys.contains kv.1))
  | [] => by
      simp [copyTagList, nodeNamesList, nodeTextsList, nodeAttrsAllList]
  | c :: cs => by
      obtain ⟨h1, h2, h3⟩ := copyTag_spec c
      obtain ⟨h4, h5, h6⟩ := copyTagList_spec cs
      simp [copyTagList, nodeNamesList, nodeTextsList, nodeAttrsAllList,
        h1, h2, h3, h4, h5, h6, List.filter_append]
end

theorem appendAtList_get : ∀ (cs : List Node) (i : Nat) (p : List Nat)
    (extra : List Node) (c : Node), cs.get? i = some c →
    (appendAtList cs i p extra).get? i = some (appendAt c p extra)
  | [], i, _, _, _ => by simp
  | c0 :: cs, 0, p, extra, c => by
      intro h
      simp only [List.get?_cons_zero, Option.some.injEq] at h
      subst h
      rfl
  | c0 :: cs, i + 1, p, extra, c => by
      intro h
      simp only [List.get?_cons_succ] at h
      simpa [appendAtList] using appendAtList_get cs i p extra c h

theorem subtreeAt_appendAt : ∀ (root : Node) (p : List Nat) (extra : List Node)
    (nm : String) (ats : List (String × String)) (cs : List Node),
    subtreeAt root p = some (.elem nm ats cs) →
    subtreeAt (appendAt root p extra) p = some (.elem nm ats (cs ++ extra))
  | root, [], extra, nm, ats, cs => by
      intro h
      simp only [subtreeAt, Option.some.injEq] at h
      subst h
      rfl
  | .text _, i :: p, extra, nm, ats, cs => by
      intro h
      simp [subtreeAt] at h
  | .elem nm0 ats0 cs0, i :: p, extra, nm, ats, cs => by
      intro h
      simp only [subtreeAt] at h
      cases hg : cs0.get? i with
      | none => rw [hg] at h; simp at h
      | some c =>
        rw [hg] at h
        simp only at h
        show subtreeAt (.elem nm0 ats0 (appendAtList cs0 i p extra)) (i :: p) = _
        simp only [subtreeAt, appendAtList_get cs0 i p extra c hg]
        exact subtreeAt_appendAt c p extra nm ats cs h

/-- C3 — amended.  Merging parsed documents appends, in input order,
copies of every secondary document's body children to the main body
(a body-less secondary contributes nothing), and the copy preserves all
tag names, all text content, and exactly the attribute pairs whose
attribute name is none of `new_tag`'s parameter names
(`newTagParamKeys`): `_copy_tag`'s own filter drops `name`, and
`new_tag(src.name, **attrs)` swallows the other parameter-named keys
into keyword parameters instead of attributes (a key `attrs` raises in
recent bs4; see `newTagParamKeys`). -/
theorem claim_C3_amended (main : Node) (rest : List Node) (mbp : List Nat)
    (nm : String) (ats : List (String × String)) (cs : List Node)
    (hb : findBodyPath main = some mbp)
    (hsub : subtreeAt main mbp = some (.elem nm ats cs)) :
    (combineDocuments (main :: rest) =
      some (appendAt main mbp (rest.flatMap mergeContribution))) ∧
    (subtreeAt (appendAt main mbp (rest.flatMap mergeContribution)) mbp =
      some (.elem nm ats (cs ++ rest.flatMap mergeContribution))) ∧
    (∀ d, findBodyPath d = none → mergeContribution d = []) ∧
    (∀ d bp, findBodyPath d = some bp →
      mergeContribution d = (Node.children (nodeAt d bp)).map copyTag) ∧
    (∀ t : Node,
      nodeNames (copyTag t) = nodeNames t ∧
      nodeTexts (copyTag t) = nodeTexts t ∧
      nodeAttrsAll (copyTag t) = (nodeAttrsAll t).filter (fun kv => !(newTagParamKeys.contains kv.1))) := by
  refine ⟨?_, subtreeAt_appendAt main mbp _ nm ats cs hsub, ?_, ?_, copyTag_spec⟩
  · unfold combineDocuments
    dsimp only
    rw [hb]
  · intro d hd
    unfold mergeContribution
    rw [hd]
  · intro d bp hd
    unfold mergeContribution
    rw [hd]

/-- Main document of the merger counterexample: an empty body. -/
def c3main : Node := .elem "[document]" [] [.elem "html" [] [.elem "body" [] [.text "m"]]]

/-- Secondary document whose body child carries an attribute literally
named `name`. -/
def c3sec : Node :=
  .elem "[document]" [] [.elem "body" [] [.elem "form" [("name", "f"), ("action", "x")] []]]

/-- C3 — counterexample.  The `form` child of the secondary body is
merged without its `name="f"` attribute (`_copy_tag` filters the key
before calling `new_tag`, in every bs4 version): the merged tree
contains no `("name", "f")` pair anywhere, so the merge does *not*
preserve every attribute name-value pair. -/
theorem claim_C3_counterexample :
    combineDocuments [c3main, c3sec] =
      some (.elem "[document]" [] [.elem "html" [] [.elem "body" [] [.text "m",
        .elem "form" [("action", "x")] []]]]) ∧
    ("name", "f") ∈ nodeAttrsAll c3sec ∧
    ("name", "f") ∉ nodeAttrsAll (.elem "[document]" [] [.elem "html" [] [.elem "body" [] [.text "m",
      .elem "form" [("action", "x")] []]]]) := by
  refine ⟨by decide, by decide, by decide⟩

/-- C3 — witness: the amended theorem applied to the concrete pair of
documents. -/
theorem claim_C3_witness :
    findBodyPath c3main = some [0, 0] ∧
    subtreeAt c3main [0, 0] = some (.elem "body" [] [.text "m"]) ∧
    (combineDocuments (c3main :: [c3sec]) =
      some (appendAt c3main [0, 0] ([c3sec].flatMap mergeContribution)) ∧
     (subtreeAt (appendAt c3main [0, 0] ([c3sec].flatMap mergeContribution)) [0, 0] =
       some (.elem "body" [] ([.text "m"] ++ [c3sec].flatMap mergeContribution))) ∧
     (∀ d, findBodyPath d = none → mergeContribution d = []) ∧
     (∀ d bp, findBodyPath d = some bp →
       mergeContribution d = (Node.children (nodeAt d bp)).map copyTag) ∧
     (∀ t : Node,
       nodeNames (copyTag t) = nodeNames t ∧
       nodeTexts (copyTag t) = nodeTexts t ∧
       nodeAttrsAll (copyTag t) = (nodeAttrsAll t).filter (fun kv => !(newTagParamKeys.contains kv.1)))) :=
  ⟨by decide, by decide,
   claim_C3_amended c3main [c3sec] [0, 0] "body" [] [.text "m"] (by decide) (by decide)⟩

/-- The failure condition of one locate attempt on one document, as the
claim states it: the model reply is absent, carries fewer than two
records, or the flattened leaf strings of the first or of the last
record (possibly an empty set of strings, as for `{}`) match no node of
the tree. -/
def attemptFails (root : Node) (bp : List Nat) (resp : Option (List Item)) : Prop :=
  match resp with
  | none => True
  | some l => l.length < 2 ∨
      findDataElements root bp (processQueryStrings (extractValues (l.headD .null))) = [] ∨
      findDataElements root bp (processQueryStrings (extractValues (l.getLastD .null))) = []

theorem findDataStructure_fails (root : Node) (bp : List Nat)
    (sel : List (List Nat × List Nat) → List (List Nat × List Nat))
    (pool : List String) (resp : Option (List Item)) (h : attemptFails root bp resp) :
    (findDataStructure root bp sel pool resp).1 = none := by
  unfold findDataStructure
  cases resp with
  | none => rfl
  | some l =>
    unfold attemptFails at h
    dsimp only at h
    by_cases hlen : 1 < l.length
    · have hgen : generateDataSample (some l) = some l := by
        unfold generateDataSample
        dsimp only
        rw [if_pos hlen]
      rw [hgen]
      dsimp only
      have hor : findDataElements root bp
          (processQueryStrings (extractValues (l.headD .null))) = [] ∨
          findDataElements root bp
            (processQueryStrings (extractValues (l.getLastD .null))) = [] := by
        rcases h with h | h
        · exact absurd hlen (by omega)
        · exact h
      rw [if_pos hor]
    · have hgen : generateDataSample (some l) = none := by
        unfold generateDataSample
        dsimp only
        rw [if_neg hlen]
      rw [hgen]

/-- C4 — confirmed.  When the model reply for the attempt on the main
document is absent, too short, or its boundary records' leaf strings
match nothing — and, should embedded frame documents exist, the retry on
the merged document fails the same way — `find` returns the current
document body with the `DATA_NOT_FOUND` shape.  Every function involved
is total, so no exception can be raised on the way. -/
theorem claim_C4 (doc1 : Node) (bp1 : List Nat) (r1 : Option (List Item))
    (embedded : Option (Node × List Nat)) (r2 : Option (List Item))
    (sel : List (List Nat × List Nat) → List (List Nat × List Nat))
    (pool : List String) (attempts : Nat)
    (h1 : attemptFails doc1 bp1 r1)
    (h2 : ∀ db : Node × List Nat, embedded = some db → attemptFails db.1 db.2 r2) :
    find doc1 bp1 r1 embedded r2 sel pool attempts =
      (nodeAt (match embedded with | none => (doc1, bp1) | some db => db).1
              (match embedded with | none => (doc1, bp1) | some db => db).2,
       .DATA_NOT_FOUND) := by
  have hf1 := findDataStructure_fails doc1 bp1 sel pool r1 h1
  unfold find findData
  cases hpair : findDataStructure doc1 bp1 sel pool r1 with
  | mk o1 p1 =>
    rw [hpair] at hf1
    simp only at hf1
    subst hf1
    cases embedded with
    | none => rfl
    | some db =>
      have hf2 := findDataStructure_fails db.1 db.2 sel p1 r2 (h2 db rfl)
      cases hpair2 : findDataStructure db.1 db.2 sel p1 r2 with
      | mk o2 p2 =>
        rw [hpair2] at hf2
        simp only at hf2
        subst hf2
        dsimp only
        rw [hpair2]

/-- C4 — witness: a two-record sample of empty mappings (no leaf
strings at all) yields `DATA_NOT_FOUND` on the example page. -/
theorem claim_C4_witness :
    attemptFails exRoot [0, 0] (some [.dict [], .dict []]) ∧
    find exRoot [0, 0] (some [.dict [], .dict []]) none none id [] 0 =
      (nodeAt exRoot [0, 0], .DATA_NOT_FOUND) :=
  ⟨Or.inr (Or.inl rfl),
   claim_C4 exRoot [0, 0] (some [.dict [], .dict []]) none none id [] 0
     (Or.inr (Or.inl rfl)) (fun _ h => nomatch h)⟩

/-! Subtree membership and size lemmas for the wrapper filter. -/

theorem mem_subtreesIncl_self : ∀ n : Node, n ∈ Node.subtreesIncl n
  | .text s => by simp [Node.subtreesIncl]
  | .elem nm ats cs => by simp [Node.subtreesIncl]

mutual
theorem size_le_of_mem_subtreesIncl : ∀ (n m : Node), m ∈ Node.subtreesIncl n →
    Node.size m ≤ Node.size n
  | .text s, m => by
      intro h
      simp only [Node.subtreesIncl, List.mem_singleton] at h
      subst h
      exact le_refl _
  | .elem nm ats cs, m => by
      intro h
      simp only [Node.subtreesIncl] at h
      rcases List.mem_cons.mp h with h | h
      · subst h
        exact le_refl _
      · have := size_le_of_mem_subtreesList cs m h
        simp only [Node.size]
        omega
theorem size_le_of_mem_subtreesList : ∀ (l : List Node) (m : Node), m ∈ Node.subtreesList l →
    Node.size m ≤ Node.sizeList l
  | [], m => by
      intro h
      simp [Node.subtreesList] at h
  | c :: cs, m => by
      intro h
      simp only [Node.subtreesList] at h
      rcases List.mem_append.mp h with h | h
      · have := size_le_of_mem_subtreesIncl c m h
        simp only [Node.sizeList]
        omega
      · have := size_le_of_mem_subtreesList cs m h
        simp only [Node.sizeList]
        omega
end

theorem size_lt_of_mem_properSubtrees (n m : Node) (h : m ∈ Node.properSubtrees n) :
    Node.size m < Node.size n := by
  cases n with
  | text s => simp [Node.properSubtrees, Node.subtreesIncl] at h
  | elem nm ats cs =>
    have hm : m ∈ Node.subtreesList cs := by
      simpa [Node.properSubtrees, Node.subtreesIncl] using h
    have h2 := size_le_of_mem_subtreesList cs m hm
    simp only [Node.size]
    omega

theorem mem_subtreesList_of_mem : ∀ (l : List Node) (c : Node), c ∈ l →
    ∀ x ∈ Node.subtreesIncl c, x ∈ Node.subtreesList l
  | [], c => by
      intro h
      simp at h
  | c0 :: cs, c => by
      intro h x hx
      simp only [Node.subtreesList]
      rcases List.mem_cons.mp h with h | h
      · subst h
        exact List.mem_append.mpr (Or.inl hx)
      · exact List.mem_append.mpr (Or.inr (mem_subtreesList_of_mem cs c h x hx))

theorem mem_subtreesIncl_of_subtreeAt : ∀ (q : List Nat) (n m : Node),
    subtreeAt n q = some m → m ∈ Node.subtreesIncl n
  | [], n, m => by
      intro h
      simp only [subtreeAt, Option.some.injEq] at h
      subst h
      exact mem_subtreesIncl_self n
  | i :: p, .text s, m => by
      intro h
      simp [subtreeAt] at h
  | i :: p, .elem nm ats cs, m => by
      intro h
      simp only [subtreeAt] at h
      cases hg : cs.get? i with
      | none =>
        rw [hg] at h
        simp at h
      | some c =>
        rw [hg] at h
        simp only at h
        have hc : c ∈ cs := List.get?_mem hg
        have hmem := mem_subtreesIncl_of_subtreeAt p c m h
        simp only [Node.subtreesIncl]
        exact List.mem_cons_of_mem _ (mem_subtreesList_of_mem cs c hc m hmem)

theorem mem_properSubtrees_of_subtreeAt (n m : Node) (i : Nat) (p : List Nat)
    (h : subtreeAt n (i :: p) = some m) : m ∈ Node.properSubtrees n := by
  cases n with
  | text s => simp [subtreeAt] at h
  | elem nm ats cs =>
    simp only [subtreeAt] at h
    cases hg : cs.get? i with
    | none =>
      rw [hg] at h
      simp at h
    | some c =>
      rw [hg] at h
      simp only at h
      have hc : c ∈ cs := List.get?_mem hg
      have hmem := mem_subtreesIncl_of_subtreeAt p c m h
      simp only [Node.properSubtrees, Node.subtreesIncl, List.drop_succ_cons, List.drop_zero]
      exact mem_subtreesList_of_mem cs c hc m hmem

theorem subtreeAt_append : ∀ (p : List Nat) (root : Node) (q : List Nat),
    subtreeAt root (p ++ q) = (subtreeAt root p).bind (fun n => subtreeAt n q)
  | [], root, q => by simp [subtreeAt]
  | i :: p, .text s, q => by simp [subtreeAt]
  | i :: p, .elem nm ats cs, q => by
      simp only [List.cons_append, subtreeAt]
      cases hg : cs.get? i with
      | none => simp
      | some c => simpa using subtreeAt_append p c q

theorem pyEqDocumentData_refl (root : Node) (a : DocumentData) :
    pyEqDocumentData root a a = true := by
  unfold pyEqDocumentData optNodeEq ratEq
  cases a.container <;> cases a.element1 <;> cases a.element2 <;> simp

/-- Tree used by the wrapper-filter counterexample: the candidate
container `div[k=big]` at `[0]` holds an inner `div[p "x"]`, and an
unrelated sibling `div[p "x"]` with identical markup sits at `[1]`. -/
def c5root : Node := .elem "body" [] [
  .elem "div" [("k", "big")] [.elem "div" [] [.elem "p" [] [.text "x"]]],
  .elem "div" [] [.elem "p" [] [.text "x"]]]

def c5A : DocumentData := ⟨some [0], some [0, 0, 0], some [0, 0, 0], (1, 2)⟩
def c5B : DocumentData := ⟨some [1], some [1, 0], some [1, 0], (1, 2)⟩

/-- C5 — counterexample.  The wrapper filter removes candidate `c5A`
even though the only other candidate's container (path `[1]`) is *not*
a strict descendant of `c5A`'s container (path `[0]`): it merely has
the same markup as the inner `div` of `c5A`'s container, and Python's
`in other.descendants` compares by markup, not by instance.  So "removed
only if another equal-proportion candidate's container is a strict
descendant" is false. -/
theorem claim_C5_counterexample :
    filterWrappers c5root [c5A, c5B] = [c5B] ∧
    c5A.container = some [0] ∧ c5B.container = some [1] ∧
    strictDescPath [1] [0] = false ∧
    ratEq c5A.proportion c5B.proportion = true := by
  refine ⟨by decide, by decide, by decide, by decide, by decide⟩

/-- C5 — amended.  (i) The wrapper filter removes a candidate `A`
exactly when some candidate `B` of the list with the same proportion,
differing from `A` in some field up to markup equality, has a container
that is markup-unequal to `A`'s container and markup-equal to some node
of `A`'s container's subtree (Python's `is_descendant_of`).  (ii) In
particular, for two candidates of equal proportion whose containers
really are ancestor and strict descendant, only the inner one survives.
(iii) When the wrapper filter leaves nothing, the locator returns the
empty `DocumentData`, and (iv) a located result without a container
makes `find` return the `DATA_NOT_FOUND` outcome with the current body.
-/
theorem claim_C5_amended :
    (∀ (root : Node) (data : List DocumentData) (a : DocumentData),
      a ∈ filterWrappers root data ↔
        a ∈ data ∧ ¬∃ b ∈ data,
          ratEq a.proportion b.proportion = true ∧
          pyEqDocumentData root a b = false ∧
          optIsDescendantOf root b.container a.container = true) ∧
    (∀ (root : Node) (pa ext : List Nat) (na nb : Node)
      (ea1 ea2 eb1 eb2 : Option (List Nat)) (pra prb : Proportion),
      subtreeAt root pa = some na → subtreeAt root (pa ++ ext) = some nb → ext ≠ [] →
      ratEq pra prb = true →
      filterWrappers root
        [⟨some pa, ea1, ea2, pra⟩, ⟨some (pa ++ ext), eb1, eb2, prb⟩] =
        [⟨some (pa ++ ext), eb1, eb2, prb⟩]) ∧
    (∀ (root : Node)
      (sel : List (List Nat × List Nat) → List (List Nat × List Nat))
      (pool : List String) (e1 e2 : List (List Nat)),
      (filterUniqueContainers root (mkCandidates root (cappedPairs sel e1 e2))).length ≠ 1 →
      (filterData root pool
        (filterUniqueContainers root (mkCandidates root (cappedPairs sel e1 e2)))).length ≠ 1 →
      filterWrappers root (filterData root pool
        (filterUniqueContainers root (mkCandidates root (cappedPairs sel e1 e2)))) = [] →
      findDataContainer root sel pool e1 e2 = emptyDocumentData) ∧
    (∀ (doc1 : Node) (bp1 : List Nat) (r1 : Option (List Item))
      (embedded : Option (Node × List Nat)) (r2 : Option (List Item))
      (sel : List (List Nat × List Nat) → List (List Nat × List Nat))
      (pool : List String) (attempts : Nat) (d : DocumentData),
      (findData doc1 bp1 r1 embedded r2 sel pool).1 = some d → d.container = none →
      find doc1 bp1 r1 embedded r2 sel pool attempts =
        (nodeAt (findData doc1 bp1 r1 embedded r2 sel pool).2.1.1
                (findData doc1 bp1 r1 embedded r2 sel pool).2.1.2,
         .DATA_NOT_FOUND)) := by
  refine ⟨?_, ?_, ?_, ?_⟩
  · intro root data a
    constructor
    · intro h
      rw [filterWrappers, List.mem_filter] at h
      refine ⟨h.1, ?_⟩
      rintro ⟨b, hb, hr, hp, hd⟩
      have h2 := h.2
      rw [Bool.not_eq_true', List.any_eq_false] at h2
      have hfb := h2 b hb
      rw [hr, hp, hd] at hfb
      simp at hfb
    · rintro ⟨ha, hnex⟩
      rw [filterWrappers, List.mem_filter]
      refine ⟨ha, ?_⟩
      rw [Bool.not_eq_true', List.any_eq_false]
      intro b hb
      cases h : (ratEq a.proportion b.proportion && !pyEqDocumentData root a b &&
          optIsDescendantOf root b.container a.container) with
      | false => simp
      | true =>
        rw [Bool.and_eq_true, Bool.and_eq_true, Bool.not_eq_true'] at h
        exact fun _ => absurd ⟨b, hb, h.1.1, h.1.2, h.2⟩ hnex
  · intro root pa ext na nb ea1 ea2 eb1 eb2 pra prb hna hnb hext hrat
    obtain ⟨i, p, rfl⟩ : ∃ i p, ext = i :: p := by
      cases ext with
      | nil => exact absurd rfl hext
      | cons i p => exact ⟨i, p, rfl⟩
    have hb := subtreeAt_append pa root (i :: p)
    rw [hna] at hb
    have hnb2 : subtreeAt na (i :: p) = some nb := by
      have h0 := hnb
      rw [hb] at h0
      exact h0
    have hmem : nb ∈ Node.properSubtrees na := mem_properSubtrees_of_subtreeAt na nb i p hnb2
    have hlt : Node.size nb < Node.size na := size_lt_of_mem_properSubtrees na nb hmem
    have hne : nb ≠ na := by
      intro he
      rw [he] at hlt
      exact absurd hlt (lt_irrefl _)
    have hne2 : na ≠ nb := fun he => hne he.symm
    have hnodeA : nodeAt root pa = na := by rw [nodeAt, hna]; rfl
    have hnodeB : nodeAt root (pa ++ i :: p) = nb := by rw [nodeAt, hnb]; rfl
    have hdescBA : isDescendantOf nb na = true := by
      unfold isDescendantOf
      have h1 : (nb != na) = true := bne_iff_ne.mpr hne
      have h2 : (Node.properSubtrees na).contains nb = true := by
        simpa using hmem
      rw [h1, h2]
      rfl
    have hdescAB : isDescendantOf na nb = false := by
      unfold isDescendantOf
      have h2 : (Node.properSubtrees nb).contains na = false := by
        cases h : (Node.properSubtrees nb).contains na with
        | false => rfl
        | true =>
          have hmem2 : na ∈ Node.properSubtrees nb := by simpa using h
          have := size_lt_of_mem_properSubtrees nb na hmem2
          omega
      rw [h2]
      simp
    have hoptBA : optIsDescendantOf root (some (pa ++ i :: p)) (some pa) = true := by
      show isDescendantOf (nodeAt root (pa ++ i :: p)) (nodeAt root pa) = true
      rw [hnodeA, hnodeB]
      exact hdescBA
    have hoptAB : optIsDescendantOf root (some pa) (some (pa ++ i :: p)) = false := by
      show isDescendantOf (nodeAt root pa) (nodeAt root (pa ++ i :: p)) = false
      rw [hnodeA, hnodeB]
      exact hdescAB
    have hpyAB : pyEqDocumentData root ⟨some pa, ea1, ea2, pra⟩
        ⟨some (pa ++ i :: p), eb1, eb2, prb⟩ = false := by
      unfold pyEqDocumentData
      have : optNodeEq root (some pa) (some (pa ++ i :: p)) = false := by
        show (subtreeAt root pa == subtreeAt root (pa ++ i :: p)) = false
        rw [hna, hnb]
        simp [hne2]
      rw [this]
      simp
    simp [filterWrappers, hrat, hoptBA, hoptAB, hpyAB, pyEqDocumentData_refl]
  · intro root sel pool e1 e2 h1 h2 h3
    unfold findDataContainer
    dsimp only
    rw [if_neg h1, if_neg h2, h3]
  · intro doc1 bp1 r1 embedded r2 sel pool attempts d hfd hcont
    unfold find
    dsimp only
    cases hpair : findData doc1 bp1 r1 embedded r2 sel pool with
    | mk o rest =>
      rw [hpair] at hfd
      simp only at hfd
      subst hfd
      dsimp only
      rw [hcont]

/-- Witness tree for a genuine ancestor/descendant candidate pair. -/
def w2root : Node := .elem "body" [] [.elem "div" [] [.elem "p" [] [.text "x1"]]]

/-- Witness tree for a run whose coverage filter drops every candidate. -/
def w3root : Node := .elem "body" [] [
  .elem "div" [] [.elem "p" [] [.text "t1"], .elem "p" [] [.text "t3"]],
  .elem "p" [] [.text "t2"]]

def c5w4Body : Node := .elem "body" [] [
  .elem "div" [] [.elem "p" [] [.text "t1"], .elem "p" [] [.text "t3"]],
  .elem "p" [] [.text "t1"]]

def c5w4Root : Node := .elem "[document]" [] [.elem "html" [] [c5w4Body]]

/-- A sample whose ten middle records appear nowhere on the page, so
every candidate falls below the coverage threshold and the located
result has no container. -/
def c5w4Resp : Option (List Item) := some [
  .dict [("a", .str "t1")],
  .dict [("m1", .str "u1")], .dict [("m2", .str "u2")], .dict [("m3", .str "u3")],
  .dict [("m4", .str "u4")], .dict [("m5", .str "u5")], .dict [("m6", .str "u6")],
  .dict [("m7", .str "u7")], .dict [("m8", .str "u8")], .dict [("m9", .str "u9")],
  .dict [("m10", .str "u10")],
  .dict [("b", .str "t3")]]

/-- C5 — witness: the amended theorem's conditional parts applied to
concrete runs. -/
theorem claim_C5_witness :
    (subtreeAt w2root [0] = some (.elem "div" [] [.elem "p" [] [.text "x1"]]) ∧
     subtreeAt w2root ([0] ++ [0]) = some (.elem "p" [] [.text "x1"]) ∧
     ([0] : List Nat) ≠ [] ∧ ratEq (1, 2) (2, 4) = true ∧
     filterWrappers w2root
       [⟨some [0], none, none, (1, 2)⟩, ⟨some ([0] ++ [0]), none, none, (2, 4)⟩] =
       [⟨some ([0] ++ [0]), none, none, (2, 4)⟩]) ∧
    ((filterUniqueContainers w3root
        (mkCandidates w3root (cappedPairs id [[0, 0], [1]] [[0, 1]]))).length ≠ 1 ∧
     (filterData w3root ["zz"] (filterUniqueContainers w3root
        (mkCandidates w3root (cappedPairs id [[0, 0], [1]] [[0, 1]])))).length ≠ 1 ∧
     filterWrappers w3root (filterData w3root ["zz"] (filterUniqueContainers w3root
        (mkCandidates w3root (cappedPairs id [[0, 0], [1]] [[0, 1]])))) = [] ∧
     findDataContainer w3root id ["zz"] [[0, 0], [1]] [[0, 1]] = emptyDocumentData) ∧
    ((findData c5w4Root [0, 0] c5w4Resp none none id []).1 = some emptyDocumentData ∧
     emptyDocumentData.container = none ∧
     find c5w4Root [0, 0] c5w4Resp none none id [] 0 =
       (nodeAt (findData c5w4Root [0, 0] c5w4Resp none none id []).2.1.1
               (findData c5w4Root [0, 0] c5w4Resp none none id []).2.1.2,
        .DATA_NOT_FOUND)) :=
  ⟨⟨by decide, by decide, by decide, by decide,
    claim_C5_amended.2.1 w2root [0] [0]
      (.elem "div" [] [.elem "p" [] [.text "x1"]]) (.elem "p" [] [.text "x1"])
      none none none none (1, 2) (2, 4) (by decide) (by decide) (by decide) (by decide)⟩,
   ⟨by decide, by decide, by decide,
    claim_C5_amended.2.2.1 w3root id ["zz"] [[0, 0], [1]] [[0, 1]]
      (by decide) (by decide) (by decide)⟩,
   ⟨by decide, by decide,
    claim_C5_amended.2.2.2 c5w4Root [0, 0] c5w4Resp none none id [] 0
      emptyDocumentData (by decide) (by decide)⟩⟩

theorem anchorPairs_length (a b : List (List Nat)) :
    (anchorPairs a b).length = a.length * b.length := by
  unfold anchorPairs
  induction a with
  | nil => simp
  | cons x a ih =>
    simp only [List.flatMap_cons, List.length_append, List.length_map, List.length_cons, ih]
    ring

/-- C6 — confirmed.  One locate pass builds exactly one
common-ancestor computation per retained anchor pair: all
`|E1| * |E2|` pairs when at most 1000 exist, and exactly the 1000
sampled pairs otherwise — never more than 1000 — and the computation is
a total function, so it terminates. -/
theorem claim_C6 (root : Node)
    (sel : List (List Nat × List Nat) → List (List Nat × List Nat))
    (e1 e2 : List (List Nat))
    (hsel : ∀ l : List (List Nat × List Nat), 1000 < l.length → (sel l).length = 1000)
    (_h1 : e1 ≠ []) (_h2 : e2 ≠ []) :
    (mkCandidates root (cappedPairs sel e1 e2)).length = min (e1.length * e2.length) 1000 := by
  unfold mkCandidates cappedPairs
  dsimp only
  by_cases hc : 1000 < (anchorPairs e1 e2).length
  · rw [if_pos hc, List.length_map, hsel _ hc]
    rw [anchorPairs_length] at hc
    exact (Nat.min_eq_right (le_of_lt hc)).symm
  · rw [if_neg hc, List.length_map, anchorPairs_length]
    rw [anchorPairs_length] at hc
    exact (Nat.min_eq_left (Nat.le_of_not_lt hc)).symm

/-- The deterministic stand-in for `random.sample(pairs, 1000)` used by
witnesses: any selection returning 1000 of the pairs satisfies the
theorem. -/
def selTake (l : List (List Nat × List Nat)) : List (List Nat × List Nat) := l.take 1000

theorem selTake_spec : ∀ l : List (List Nat × List Nat),
    1000 < l.length → (selTake l).length = 1000 := by
  intro l h
  simp only [selTake, List.length_take]
  omega

def c6e1 : List (List Nat) := (List.range 50).map (fun i => [i])

def c6e2 : List (List Nat) := (List.range 50).map (fun i => [i + 1])

/-- C6 — witness: with 50 × 50 = 2500 anchor pairs, exactly
`min 2500 1000 = 1000` pairs are evaluated. -/
theorem claim_C6_witness :
    (∀ l : List (List Nat × List Nat), 1000 < l.length → (selTake l).length = 1000) ∧
    c6e1 ≠ [] ∧ c6e2 ≠ [] ∧
    (mkCandidates (.text "") (cappedPairs selTake c6e1 c6e2)).length =
      min (c6e1.length * c6e2.length) 1000 ∧
    min (c6e1.length * c6e2.length) 1000 = 1000 :=
  ⟨selTake_spec, by decide, by decide,
   claim_C6 (.text "") selTake c6e1 c6e2 selTake_spec (by decide) (by decide),
   by decide⟩

/-- C7 — confirmed.  For a located candidate with a container: an
attempt number greater than 1 returns the container unchanged with the
`CONTAINER` (raw container) shape, before any table, first-item or
distinct-children refinement; otherwise, when the container is a table
or has a table ancestor, the returned sample is the copy of that table
with every row element after the first 15 removed, with shape `TABLE`.
-/
theorem claim_C7 (doc1 : Node) (bp1 : List Nat) (r1 : Option (List Item))
    (embedded : Option (Node × List Nat)) (r2 : Option (List Item))
    (sel : List (List Nat × List Nat) → List (List Nat × List Nat))
    (pool : List String) (attempts : Nat) (d : DocumentData) (c : List Nat)
    (hfd : (findData doc1 bp1 r1 embedded r2 sel pool).1 = some d)
    (hcont : d.container = some c) :
    (1 < attempts →
      find doc1 bp1 r1 embedded r2 sel pool attempts =
        (nodeAt (findData doc1 bp1 r1 embedded r2 sel pool).2.1.1 c, .CONTAINER)) ∧
    (∀ t : List Nat, ¬ 1 < attempts →
      findParentTable (findData doc1 bp1 r1 embedded r2 sel pool).2.1.1 c = some t →
      find doc1 bp1 r1 embedded r2 sel pool attempts =
        (getFirstRows (nodeAt (findData doc1 bp1 r1 embedded r2 sel pool).2.1.1 t) 15,
         .TABLE)) := by
  unfold find
  dsimp only
  cases hpair : findData doc1 bp1 r1 embedded r2 sel pool with
  | mk o rest =>
    rw [hpair] at hfd
    simp only at hfd
    subst hfd
    dsimp only
    rw [hcont]
    dsimp only
    constructor
    · intro hatt
      rw [if_pos hatt]
    · intro t hatt htab
      rw [if_neg hatt]
      rw [htab]

/-- A page whose data region is a two-row table. -/
def tbBody : Node := .elem "body" [] [
  .elem "table" [] [
    .elem "tr" [] [.elem "td" [] [.text "Austria"], .elem "td" [] [.text "Vienna"]],
    .elem "tr" [] [.elem "td" [] [.text "Sweden"], .elem "td" [] [.text "Stockholm"]]]]

def tbRoot : Node := .elem "[document]" [] [.elem "html" [] [tbBody]]

def tbResp : Option (List Item) := some [
  .dict [("c", .str "Austria")], .dict [("c", .str "Sweden")]]

/-- C7 — witness: on the table page, attempt number 2 returns the raw
container with shape `CONTAINER`, and attempt number 0 returns the
table truncated to its first 15 rows with shape `TABLE`. -/
theorem claim_C7_witness :
    (findData tbRoot [0, 0] tbResp none none id []).1 =
      some ⟨some [0, 0, 0], some [0, 0, 0, 0, 0], some [0, 0, 0, 1, 0], (0, 1)⟩ ∧
    find tbRoot [0, 0] tbResp none none id [] 2 =
      (nodeAt (findData tbRoot [0, 0] tbResp none none id []).2.1.1 [0, 0, 0],
       .CONTAINER) ∧
    findParentTable (findData tbRoot [0, 0] tbResp none none id []).2.1.1 [0, 0, 0] =
      some [0, 0, 0] ∧
    find tbRoot [0, 0] tbResp none none id [] 0 =
      (getFirstRows (nodeAt (findData tbRoot [0, 0] tbResp none none id []).2.1.1 [0, 0, 0]) 15,
       .TABLE) :=
  ⟨by decide,
   (claim_C7 tbRoot [0, 0] tbResp none none id [] 2
     ⟨some [0, 0, 0], some [0, 0, 0, 0, 0], some [0, 0, 0, 1, 0], (0, 1)⟩ [0, 0, 0]
     (by decide) (by decide)).1 (by decide),
   by decide,
   (claim_C7 tbRoot [0, 0] tbResp none none id [] 0
     ⟨some [0, 0, 0], some [0, 0, 0, 0, 0], some [0, 0, 0, 1, 0], (0, 1)⟩ [0, 0, 0]
     (by decide) (by decide)).2 [0, 0, 0] (by decide) (by decide)⟩

/-- Tree for the matcher counterexample: `div` wraps a `p` that wraps
the text `x`. -/
def c8root : Node :=
  .elem "[document]" [] [.elem "body" [] [.elem "div" [] [.elem "p" [] [.text "x"]]]]

/-- C8 — counterexample.  `find_elements_by_text` returns the `div` as
well, although the `div`'s own direct text content is empty: BeautifulSoup's
`Tag.string` descends through only-children, so the matcher is not
"exactly the nodes whose own direct text content equals the literal". -/
theorem claim_C8_counterexample :
    findElementsByText c8root [0] "x" = [[0, 0], [0, 0, 0]] ∧
    [0, 0] ∈ findElementsByText c8root [0] "x" ∧
    nodeAt c8root [0, 0] = .elem "div" [] [.elem "p" [] [.text "x"]] ∧
    directOwnText (nodeAt c8root [0, 0]) = "" ∧
    pyStrip (directOwnText (nodeAt c8root [0, 0])) ≠ "x" := by
  refine ⟨by decide, by decide, by decide, by decide, by decide⟩

theorem flatMap_map_aux (ss : List String) (f : String → String)
    (g : String → List (List Nat)) :
    (ss.map f).flatMap g = ss.flatMap (fun s => g (f s)) := by
  induction ss with
  | nil => rfl
  | cons s ss ih => simp [ih]

/-- C8 — amended.  The matcher returns exactly the element nodes
strictly inside the body whose BeautifulSoup `string` — the text
reached by descending through only-children — is non-empty and, trimmed
of surrounding whitespace, equals the query literal exactly (never a
substring match, never case-insensitive); and the locator looks each
leaf string up with its trailing periods stripped whenever it ends in
the `...` ellipsis marker. -/
theorem claim_C8_amended :
    (∀ (root : Node) (bp : List Nat) (t : String) (p : List Nat),
      p ∈ findElementsByText root bp t ↔
        p ∈ findAllPositions root bp ∧
        ∃ s, Node.tagString (nodeAt root p) = some s ∧ s ≠ "" ∧ pyStrip s = t) ∧
    (∀ (root : Node) (bp : List Nat) (rec : Item),
      findDataElements root bp (processQueryStrings (extractValues rec)) =
        (extractValues rec).flatMap (fun s =>
          findElementsByText root bp (if endsWithDots s then rstripDots s else s))) := by
  constructor
  · intro root bp t p
    unfold findElementsByText
    rw [List.mem_filter]
    constructor
    · rintro ⟨hmem, hpred⟩
      refine ⟨hmem, ?_⟩
      unfold tagContainsText at hpred
      cases hts : Node.tagString (nodeAt root p) with
      | none =>
        rw [hts] at hpred
        simp at hpred
      | some s =>
        rw [hts] at hpred
        simp only at hpred
        rw [Bool.and_eq_true] at hpred
        exact ⟨s, rfl, by simpa using hpred.1, by simpa using hpred.2⟩
    · rintro ⟨hmem, s, hts, hne, hstrip⟩
      refine ⟨hmem, ?_⟩
      unfold tagContainsText
      rw [hts]
      simp [hne, hstrip]
  · intro root bp rec
    unfold findDataElements processQueryStrings
    exact flatMap_map_aux (extractValues rec) _ _

/-- Tree for the common-ancestor counterexample: two markup-identical
`div[p "x"]` subtrees side by side. -/
def c9root : Node := .elem "body" [] [
  .elem "div" [] [.elem "p" [] [.text "x"]],
  .elem "div" [] [.elem "p" [] [.text "x"]]]

/-- C9 — counterexample.  For the `p` nodes of the two markup-identical
`div`s, `find_common_ancestor` returns the *first* `div` (path `[0]`),
a node that does not occur in the second node's ancestor chain at all
and is not even an ancestor of it — Python's `in` matched the second
`div` by markup.  The claimed "first node of a's chain that also occurs
in b's chain" would be the shared body. -/
theorem claim_C9_counterexample :
    findCommonAncestor c9root [0, 0] [1, 0] = some [0] ∧
    [0] ∉ ancestorPaths [1, 0] ∧
    (([0] : List Nat).isPrefixOf [1, 0]) = false := by
  refine ⟨by decide, by decide, by decide⟩

theorem find?_first {α : Type} (l : List α) (f : α → Bool) (a : α)
    (h : l.find? f = some a) :
    ∃ l1 l2, l = l1 ++ a :: l2 ∧ f a = true ∧ ∀ x ∈ l1, f x = false := by
  induction l with
  | nil => simp [List.find?] at h
  | cons x xs ih =>
    cases hf : f x with
    | true =>
      rw [List.find?_cons_of_pos _ hf] at h
      injection h with h
      subst h
      exact ⟨[], xs, rfl, hf, by simp⟩
    | false =>
      rw [List.find?_cons_of_neg _ (by rw [hf]; exact Bool.false_ne_true)] at h
      obtain ⟨l1, l2, heq, hfa, hall⟩ := ih h
      refine ⟨x :: l1, l2, by rw [heq]; rfl, hfa, ?_⟩
      intro y hy
      rcases List.mem_cons.mp hy with hyx | hy
      · rw [hyx]; exact hf
      · exact hall y hy

theorem ancestorPaths_sub (p r : List Nat) (h : r ∈ ancestorPaths p) :
    r <+: p ∧ r ≠ p := by
  unfold ancestorPaths at h
  rcases List.mem_map.mp h with ⟨j, hj, hr⟩
  rw [List.mem_range] at hj
  subst hr
  constructor
  · exact List.take_prefix _ _
  · intro he
    have hlen := congrArg List.length he
    simp only [List.length_take] at hlen
    omega

theorem nil_mem_ancestorPaths (p : List Nat) (h : p ≠ []) : [] ∈ ancestorPaths p := by
  unfold ancestorPaths
  refine List.mem_map.mpr ⟨p.length - 1, ?_, ?_⟩
  · rw [List.mem_range]
    cases p with
    | nil => exact absurd rfl h
    | cons x xs => simp
  · have h0 : p.length - 1 - (p.length - 1) = 0 := by omega
    rw [h0, List.take_zero]

/-- C9 — amended.  `find_common_ancestor` returns the first node of
`a`'s ancestor chain whose *markup* equals that of some node of `b`'s
ancestor chain (so the result is always an actual ancestor of `a`, but
only markup-related to `b`'s chain); within one tree it never returns
`None` for two non-root nodes, because the shared root terminates both
chains; and on the spec's synthetic tree the common ancestor of `p#A`
and its uncle `p#A2` is `div#C`. -/
theorem claim_C9_amended :
    (∀ (root : Node) (p q r : List Nat),
      findCommonAncestor root p q = some r →
        r ∈ ancestorPaths p ∧ r <+: p ∧ r ≠ p ∧
        (∃ b ∈ ancestorPaths q, subtreeAt root r = subtreeAt root b) ∧
        (∃ l1 l2, ancestorPaths p = l1 ++ r :: l2 ∧
          ∀ a ∈ l1,
            ((ancestorPaths q).any (fun b => subtreeAt root a == subtreeAt root b)) = false)) ∧
    (∀ (root : Node) (p q : List Nat), p ≠ [] → q ≠ [] →
      (findCommonAncestor root p q).isSome) ∧
    findCommonAncestor
      (.elem "root" [] [.elem "div" [("id", "C")] [
        .elem "div" [("id", "B")] [.elem "p" [("id", "A")] [.text "x"]],
        .elem "p" [("id", "A2")] [.text "x2"]]])
      [0, 0, 0] [0, 1] = some [0] := by
  refine ⟨?_, ?_, by decide⟩
  · intro root p q r h
    unfold findCommonAncestor at h
    have hmem := List.mem_of_find?_eq_some h
    have hpred := List.find?_some h
    obtain ⟨hpre, hne⟩ := ancestorPaths_sub p r hmem
    obtain ⟨b, hbmem, hbeq⟩ := List.any_eq_true.mp hpred
    obtain ⟨l1, l2, heq, _, hall⟩ := find?_first (ancestorPaths p) _ r h
    exact ⟨hmem, hpre, hne, ⟨b, hbmem, beq_iff_eq.mp hbeq⟩, ⟨l1, l2, heq, hall⟩⟩
  · intro root p q hp hq
    cases hf : findCommonAncestor root p q with
    | some r => simp
    | none =>
      exfalso
      unfold findCommonAncestor at hf
      rw [List.find?_eq_none] at hf
      have h1 : ([] : List Nat) ∈ ancestorPaths p := nil_mem_ancestorPaths p hp
      have h2 : ([] : List Nat) ∈ ancestorPaths q := nil_mem_ancestorPaths q hq
      refine hf [] h1 ?_
      exact List.any_eq_true.mpr ⟨[], h2, by simp⟩

/-- C9 — witness: the characterization applied to the synthetic tree,
and non-`None` at two concrete non-root nodes. -/
theorem claim_C9_witness :
    findCommonAncestor
      (.elem "root" [] [.elem "div" [("id", "C")] [
        .elem "div" [("id", "B")] [.elem "p" [("id", "A")] [.text "x"]],
        .elem "p" [("id", "A2")] [.text "x2"]]])
      [0, 0, 0] [0, 1] = some [0] ∧
    ([0] ∈ ancestorPaths [0, 0, 0] ∧ [0] <+: [0, 0, 0] ∧ [0] ≠ [0, 0, 0] ∧
      (∃ b ∈ ancestorPaths [0, 1],
        subtreeAt (.elem "root" [] [.elem "div" [("id", "C")] [
          .elem "div" [("id", "B")] [.elem "p" [("id", "A")] [.text "x"]],
          .elem "p" [("id", "A2")] [.text "x2"]]]) [0] =
        subtreeAt (.elem "root" [] [.elem "div" [("id", "C")] [
          .elem "div" [("id", "B")] [.elem "p" [("id", "A")] [.text "x"]],
          .elem "p" [("id", "A2")] [.text "x2"]]]) b) ∧
      (∃ l1 l2, ancestorPaths [0, 0, 0] = l1 ++ [0] :: l2 ∧
        ∀ a ∈ l1,
          ((ancestorPaths [0, 1]).any (fun b =>
            subtreeAt (.elem "root" [] [.elem "div" [("id", "C")] [
              .elem "div" [("id", "B")] [.elem "p" [("id", "A")] [.text "x"]],
              .elem "p" [("id", "A2")] [.text "x2"]]]) a ==
            subtreeAt (.elem "root" [] [.elem "div" [("id", "C")] [
              .elem "div" [("id", "B")] [.elem "p" [("id", "A")] [.text "x"]],
              .elem "p" [("id", "A2")] [.text "x2"]]]) b)) = false)) ∧
    (([0, 0] : List Nat) ≠ [] ∧ ([0, 1] : List Nat) ≠ [] ∧
      (findCommonAncestor
        (.elem "root" [] [.elem "div" [("id", "C")] [
          .elem "div" [("id", "B")] [.elem "p" [("id", "A")] [.text "x"]],
          .elem "p" [("id", "A2")] [.text "x2"]]]) [0, 0] [0, 1]).isSome) :=
  ⟨by decide,
   claim_C9_amended.1
     (.elem "root" [] [.elem "div" [("id", "C")] [
       .elem "div" [("id", "B")] [.elem "p" [("id", "A")] [.text "x"]],
       .elem "p" [("id", "A2")] [.text "x2"]]]) [0, 0, 0] [0, 1] [0] (by decide),
   by decide, by decide,
   claim_C9_amended.2.1
     (.elem "root" [] [.elem "div" [("id", "C")] [
       .elem "div" [("id", "B")] [.elem "p" [("id", "A")] [.text "x"]],
       .elem "p" [("id", "A2")] [.text "x2"]]]) [0, 0] [0, 1] (by decide) (by decide)⟩
